import Mathlib

/-!
Kernel monitor (`kern/monitor.c`)

A shallow embedding of the JOS kernel monitor: the stack backtrace walk
(`mon_backtrace`), the two trap-frame resume commands (`mon_break_continue`,
`mon_break_step`), the command-line interpreter (`runcmd`) and the console
loop (`monitor`).

Conventions.
* Machine words are natural numbers reduced modulo `2^32` where the C code
  computes on `uint32_t`.
* Console output is a trace of the calls the code makes to `cprintf` (format
  string and argument values) and to `readline` (its prompt).
* Everything the monitor takes from the rest of the kernel (the frame-pointer
  register, stack memory, the debug-info resolver, trap numbers, linker
  symbols) is a field of `Kernel`.
* A loop that the C code runs without a bound takes a `fuel` argument and
  yields `none` when the fuel is used up before the loop is left.
-/

namespace Monitor

/-! ## Words and memory -/

/-- Reduction of a natural number to a 32-bit word. -/
def w32 (n : Nat) : Nat := n % 2 ^ 32

/-- Subtraction on `uint32_t`: `a - b` modulo `2^32`. -/
def sub32 (a b : Nat) : Nat := (w32 a + (2 ^ 32 - w32 b)) % 2 ^ 32

/-- The value of a 32-bit word read as a two's complement `int`. -/
def toInt32 (n : Nat) : Int :=
  if w32 n < 2 ^ 31 then (w32 n : Int) else (w32 n : Int) - 2 ^ 32

/-- Word-addressed view of memory: the 32-bit word stored at a byte address. -/
abbrev Mem := Nat → Nat

/-- The C expression `ebp[i]` for `uint32_t *ebp`: the word at byte address
`ebp + 4*i`. -/
def rd (mem : Mem) (ebp i : Nat) : Nat := w32 (mem (w32 (ebp + 4 * i)))

/-! ## Console trace -/

/-- One argument value passed to `cprintf`. -/
inductive Arg where
  | word (n : Nat)
  | int (i : Int)
  | str (s : String)
  | null
  deriving DecidableEq, Repr

/-- One call to an output or input routine of the console. -/
inductive Event where
  | cprintf (fmt : String) (args : List Arg)
  | readline (prompt : String)
  deriving DecidableEq, Repr

/-- A `char *` argument: `NULL` or the string pointed to. -/
def Arg.ofPtr : Option String → Arg
  | none => Arg.null
  | some s => Arg.str s

/-! ## Debug information -/

/-- The fields of `struct Eipdebuginfo` that the monitor reads. A `char *`
field is `none` when it is the null pointer. -/
structure Eipdebuginfo where
  eip_file : Option String
  eip_line : Int
  eip_fn_name : Option String
  eip_fn_namelen : Int
  eip_fn_addr : Nat
  deriving DecidableEq, Repr

/-- The initialiser `struct Eipdebuginfo info={0}`. -/
def Eipdebuginfo.zero : Eipdebuginfo :=
  { eip_file := none, eip_line := 0, eip_fn_name := none, eip_fn_namelen := 0, eip_fn_addr := 0 }

/-! ## Trap frames -/

/-- The registers pushed by `pushal` (`struct PushRegs`), in memory order. -/
structure PushRegs where
  reg_edi : Nat
  reg_esi : Nat
  reg_ebp : Nat
  reg_oesp : Nat
  reg_ebx : Nat
  reg_edx : Nat
  reg_ecx : Nat
  reg_eax : Nat
  deriving DecidableEq, Repr

/-- Modelled from the spec: `struct Trapframe` (declared in `inc/trap.h`, which
is not among the sources): general-purpose registers, segment selectors, trap
cause, error code, instruction pointer, flags and stack pointer. The field
order is the one the resume sequences of `mon_break_continue` and
`mon_break_step` walk through: eight `popal` words, `es`, `ds`, the two skipped
words `tf_trapno` and `tf_err`, then the `iret` frame `eip`, `cs`, `eflags`. -/
structure Trapframe where
  tf_regs : PushRegs
  tf_es : Nat
  tf_ds : Nat
  tf_trapno : Nat
  tf_err : Nat
  tf_eip : Nat
  tf_cs : Nat
  tf_eflags : Nat
  tf_esp : Nat
  tf_ss : Nat
  deriving DecidableEq, Repr

/-- The register values loaded by a resume sequence at the moment `iret`
executes: the `popal` registers, the two popped segment registers, and the
three words `iret` takes from the stack. -/
structure Resumed where
  edi : Nat
  esi : Nat
  ebp : Nat
  ebx : Nat
  edx : Nat
  ecx : Nat
  eax : Nat
  es : Nat
  ds : Nat
  eip : Nat
  cs : Nat
  eflags : Nat
  deriving DecidableEq, Repr

/-! ## The surrounding kernel -/

/-- What the monitor uses from the rest of the kernel. -/
structure Kernel where
  /-- Trap number of the breakpoint exception. -/
  T_BRKPT : Nat
  /-- Trap number of the debug (single-step) exception. -/
  T_DEBUG : Nat
  /-- Trap-flag bit of the flags register. -/
  FL_TF : Nat
  /-- Interrupt-enable bit of the flags register. -/
  FL_IF : Nat
  /-- Value returned by `read_ebp()`. -/
  read_ebp : Nat
  /-- Value returned by `read_eflags()`. -/
  read_eflags : Nat
  /-- Stack memory of the halted execution. -/
  mem : Mem
  /-- The resolver `debuginfo_eip(addr, &info)`: its return value and the
  contents of `info` afterwards. -/
  debuginfo_eip : Nat → Eipdebuginfo → Int × Eipdebuginfo
  /-- Output of `print_trapframe(tf)`. -/
  print_trapframe : Trapframe → List Event
  /-- Linker symbol `_start`. -/
  sym_start : Nat
  /-- Linker symbol `entry`. -/
  sym_entry : Nat
  /-- Linker symbol `etext`. -/
  sym_etext : Nat
  /-- Linker symbol `edata`. -/
  sym_edata : Nat
  /-- Linker symbol `end`. -/
  sym_end : Nat
  /-- Base virtual address of the kernel. -/
  KERNBASE : Nat
  /-- The macro `ROUNDUP(a, n)` on `int` operands. -/
  ROUNDUP : Int → Int → Int

/-! ## Results of a command -/

/-- How a monitor command ends. -/
inductive Ctl where
  /-- The C function returned this `int`. -/
  | ret (status : Int)
  /-- The `iret` of a resume sequence executed with these register values;
  control is in the halted execution and the function does not return. -/
  | iret (cpu : Resumed)
  /-- A null `struct Trapframe *` was dereferenced. -/
  | fault
  deriving DecidableEq, Repr

/-- Outcome of running a monitor command: the console trace it produced, the
trap frame afterwards, and how it ended. -/
structure Result where
  out : List Event
  tf : Option Trapframe
  ctl : Ctl
  deriving DecidableEq, Repr

/-! ## `mon_backtrace` -/

/-- The first `cprintf` of the loop body: frame pointer, return address
`ebp[1]` and the five argument words `ebp[2]` .. `ebp[6]`. -/
def frameLine (mem : Mem) (ebp : Nat) : Event :=
  Event.cprintf "  ebp %08x  eip %08x  args %08x %08x %08x %08x %08x\n"
    [Arg.word ebp, Arg.word (rd mem ebp 1), Arg.word (rd mem ebp 2), Arg.word (rd mem ebp 3),
     Arg.word (rd mem ebp 4), Arg.word (rd mem ebp 5), Arg.word (rd mem ebp 6)]

/-- The second `cprintf` of the loop body: file, line, function name with its
length, and `ebp[1]-info.eip_fn_addr`. -/
def symLine (info : Eipdebuginfo) (eip : Nat) : Event :=
  Event.cprintf "       %s:%d: %.*s+%d\n"
    [Arg.ofPtr info.eip_file, Arg.int info.eip_line, Arg.int info.eip_fn_namelen,
     Arg.ofPtr info.eip_fn_name, Arg.word (sub32 eip info.eip_fn_addr)]

/-- The loop `while (ebp!=0) { ... }` of `mon_backtrace`, started with frame
pointer `ebp` and the current contents of `info`. Yields the return status
decided inside the loop (`-1`) or after it (`0`) and the trace of the loop. -/
def backtrace_loop (K : Kernel) : Nat → Nat → Eipdebuginfo → Option (Int × List Event)
  | 0, ebp, _ => if ebp = 0 then some (0, []) else none
  | fuel + 1, ebp, info =>
    if ebp = 0 then some (0, [])
    else
      let r := K.debuginfo_eip (rd K.mem ebp 1) info
      if r.1 = -1 then some (-1, [frameLine K.mem ebp])
      else
        match backtrace_loop K fuel (rd K.mem ebp 0) r.2 with
        | none => none
        | some (st, out) => some (st, frameLine K.mem ebp :: symLine r.2 (rd K.mem ebp 1) :: out)

/-- The heading printed before the walk. -/
def backtraceHeading : Event := Event.cprintf "Stack backtrace:\n" []

/-- The command `backtrace`. -/
def mon_backtrace (K : Kernel) (fuel : Nat) (_argc : Nat) (_argv : List String)
    (tf : Option Trapframe) : Option Result :=
  match backtrace_loop K fuel (w32 K.read_ebp) Eipdebuginfo.zero with
  | none => none
  | some (st, out) => some { out := backtraceHeading :: out, tf := tf, ctl := Ctl.ret st }

/-! ## `mon_break_continue` and `mon_break_step` -/

/-- The register loads of the resume sequence
`movl tf,%esp; popal; popl %es; popl %ds; addl $0x8,%esp; ...; iret`
applied to the trap frame as it stands when `iret` executes: `popal` loads
`edi, esi, ebp, (skips oesp), ebx, edx, ecx, eax`, the two `popl` load `es` and
`ds`, `addl $0x8` skips `tf_trapno` and `tf_err`, and `iret` takes `eip`, `cs`
and the flags word at `8(%esp)`. -/
def resume (t : Trapframe) : Resumed :=
  { edi := t.tf_regs.reg_edi, esi := t.tf_regs.reg_esi, ebp := t.tf_regs.reg_ebp,
    ebx := t.tf_regs.reg_ebx, edx := t.tf_regs.reg_edx, ecx := t.tf_regs.reg_ecx,
    eax := t.tf_regs.reg_eax, es := t.tf_es, ds := t.tf_ds,
    eip := t.tf_eip, cs := t.tf_cs, eflags := t.tf_eflags }

/-- The command `continue`. After the first two pops and the `addl`, `8(%esp)`
is the flags word of the trap frame; `andl $0x11111011, 8(%esp)` rewrites it in
place before `iret`. The statements after the `asm` are never reached. -/
def mon_break_continue (K : Kernel) (_argc : Nat) (_argv : List String)
    (tf : Option Trapframe) : Result :=
  match tf with
  | none => { out := [], tf := none, ctl := Ctl.fault }
  | some t =>
    if t.tf_trapno ≠ K.T_BRKPT ∧ t.tf_trapno ≠ K.T_DEBUG then
      { out := [], tf := some t, ctl := Ctl.ret (-1) }
    else
      let t1 := { t with tf_eflags := t.tf_eflags &&& 0x11111011 }
      { out := [], tf := some t1, ctl := Ctl.iret (resume t1) }

/-- The command `si`. Same sequence as `continue`, with
`orl $0x00000100, 8(%esp)` on the flags word and a `cprintf` before it. -/
def mon_break_step (K : Kernel) (_argc : Nat) (_argv : List String)
    (tf : Option Trapframe) : Result :=
  match tf with
  | none => { out := [], tf := none, ctl := Ctl.fault }
  | some t =>
    if t.tf_trapno ≠ K.T_BRKPT ∧ t.tf_trapno ≠ K.T_DEBUG then
      { out := [], tf := some t, ctl := Ctl.ret (-1) }
    else
      let t1 := { t with tf_eflags := t.tf_eflags ||| 0x00000100 }
      { out := [Event.cprintf "Next instruction eip:%x %x\n"
                  [Arg.word t.tf_eip, Arg.word ((K.read_eflags ||| K.FL_TF) &&& K.FL_IF)]],
        tf := some t1, ctl := Ctl.iret (resume t1) }

/-! ## `mon_help` and `mon_kerninfo` -/

/-- Names and descriptions of the table `commands`. -/
def command_names : List (String × String) :=
  [("help", "Display this list of commands"),
   ("kerninfo", "Display information about the kernel"),
   ("backtrace", "display current function call stack"),
   ("continue", "continue from breakpoint"),
   ("si", "continue from breakpoint")]

/-- The command `help`. -/
def mon_help (_K : Kernel) (_argc : Nat) (_argv : List String) (tf : Option Trapframe) : Result :=
  { out := command_names.map
      (fun c => Event.cprintf "%s - %s\n" [Arg.str c.1, Arg.str c.2]),
    tf := tf, ctl := Ctl.ret 0 }

/-- The command `kerninfo`. The pointer difference `end - entry` is a 32-bit
`int`. -/
def mon_kerninfo (K : Kernel) (_argc : Nat) (_argv : List String) (tf : Option Trapframe) :
    Result :=
  { out :=
      [Event.cprintf "Special kernel symbols:\n" [],
       Event.cprintf "  _start                  %08x (phys)\n" [Arg.word K.sym_start],
       Event.cprintf "  entry  %08x (virt)  %08x (phys)\n"
         [Arg.word K.sym_entry, Arg.word (sub32 K.sym_entry K.KERNBASE)],
       Event.cprintf "  etext  %08x (virt)  %08x (phys)\n"
         [Arg.word K.sym_etext, Arg.word (sub32 K.sym_etext K.KERNBASE)],
       Event.cprintf "  edata  %08x (virt)  %08x (phys)\n"
         [Arg.word K.sym_edata, Arg.word (sub32 K.sym_edata K.KERNBASE)],
       Event.cprintf "  end    %08x (virt)  %08x (phys)\n"
         [Arg.word K.sym_end, Arg.word (sub32 K.sym_end K.KERNBASE)],
       Event.cprintf "Kernel executable memory footprint: %dKB\n"
         [Arg.int (Int.tdiv (K.ROUNDUP (toInt32 (sub32 K.sym_end K.sym_entry)) 1024) 1024)]],
    tf := tf, ctl := Ctl.ret 0 }

/-- One entry of the table `commands`. -/
structure Command where
  name : String
  desc : String
  func : Kernel → Nat → Nat → List String → Option Trapframe → Option Result

/-- The table `commands`. Only `mon_backtrace` contains a loop and uses the
fuel. -/
def commands : List Command :=
  [{ name := "help", desc := "Display this list of commands",
     func := fun K _ argc argv tf => some (mon_help K argc argv tf) },
   { name := "kerninfo", desc := "Display information about the kernel",
     func := fun K _ argc argv tf => some (mon_kerninfo K argc argv tf) },
   { name := "backtrace", desc := "display current function call stack",
     func := fun K fuel argc argv tf => mon_backtrace K fuel argc argv tf },
   { name := "continue", desc := "continue from breakpoint",
     func := fun K _ argc argv tf => some (mon_break_continue K argc argv tf) },
   { name := "si", desc := "continue from breakpoint",
     func := fun K _ argc argv tf => some (mon_break_step K argc argv tf) }]

/-! ## `runcmd` -/

/-- The terminating byte of a C string. -/
def NUL : Char := Char.ofNat 0

/-- The characters of the macro `WHITESPACE`, the string `"\t\r\n "`. -/
def WHITESPACE : List Char := [Char.ofNat 9, Char.ofNat 13, Char.ofNat 10, Char.ofNat 32]

/-- The macro `MAXARGS`. -/
def MAXARGS : Nat := 16

/-- Whether `strchr(s, c)` is non-null, for a byte `c` other than the
terminating byte: `c` occurs among the characters of `s`. Both loops of
`runcmd` test `*buf` before they call `strchr`, so it is never called on the
terminating byte. -/
def strchr (s : List Char) (c : Char) : Bool := decide (c ∈ s)

/-- The loop `while (*buf && strchr(WHITESPACE, *buf)) *buf++ = 0;`.
The command buffer is split at the pointer `buf`: `pre` holds the bytes before
the pointer, last byte first, and the second list the bytes from the pointer to
the end of the line (the terminating byte follows it). The value of the pointer
is the length of `pre`. -/
def gobble : List Char → List Char → List Char × List Char
  | pre, [] => (pre, [])
  | pre, c :: rest =>
    if c ≠ NUL ∧ strchr WHITESPACE c = true then gobble (NUL :: pre) rest else (pre, c :: rest)

/-- The loop `while (*buf && !strchr(WHITESPACE, *buf)) buf++;`. -/
def skiparg : List Char → List Char → List Char × List Char
  | pre, [] => (pre, [])
  | pre, c :: rest =>
    if c ≠ NUL ∧ strchr WHITESPACE c = false then skiparg (c :: pre) rest else (pre, c :: rest)

theorem gobble_length_le (pre rest : List Char) : (gobble pre rest).2.length ≤ rest.length := by
  induction rest generalizing pre with
  | nil => simp [gobble]
  | cons c rest ih =>
    unfold gobble
    split
    · exact Nat.le_succ_of_le (ih _)
    · exact Nat.le_refl _

theorem skiparg_length_le (pre rest : List Char) : (skiparg pre rest).2.length ≤ rest.length := by
  induction rest generalizing pre with
  | nil => simp [skiparg]
  | cons c rest ih =>
    unfold skiparg
    split
    · exact Nat.le_succ_of_le (ih _)
    · exact Nat.le_refl _

theorem gobble_head (pre rest : List Char) :
    (gobble pre rest).2.headD NUL = NUL ∨
      strchr WHITESPACE ((gobble pre rest).2.headD NUL) = false := by
  induction rest generalizing pre with
  | nil => simp [gobble]
  | cons d rest ih =>
    unfold gobble
    split
    · exact ih _
    · next hd =>
      simp only [List.headD_cons]
      by_cases hn : d = NUL
      · exact Or.inl hn
      · right
        cases hs : strchr WHITESPACE d with
        | false => rfl
        | true => exact absurd ⟨hn, hs⟩ hd

theorem skiparg_length_lt (pre rest : List Char) (h0 : rest.headD NUL ≠ NUL)
    (h1 : strchr WHITESPACE (rest.headD NUL) = false) :
    (skiparg pre rest).2.length < rest.length := by
  cases rest with
  | nil => simp at h0
  | cons c r =>
    simp only [List.headD_cons] at h0 h1
    rw [skiparg, if_pos ⟨h0, h1⟩]
    exact Nat.lt_succ_of_le (skiparg_length_le _ _)

/-- What the tokenising loop of `runcmd` leaves behind. -/
inductive Parsed where
  /-- The loop returned through the `Too many arguments` branch. -/
  | overflow
  /-- The loop was left by `break`: the buffer as rewritten by the loop, and
  the pointers stored in `argv[0]` .. `argv[argc-1]`, as offsets into it. -/
  | args (buf : List Char) (argv : List Nat)
  deriving DecidableEq, Repr

/-- The loop `while (1) { ... }` of `runcmd`, entered with the buffer split at
the pointer `buf` and the pointers stored in `argv` so far (`argc` is their
number). `*buf` is the first byte at the pointer, the terminating byte when
the line is used up. -/
def parse_loop (pre rest : List Char) (argv : List Nat) : Parsed :=
  if h : (gobble pre rest).2.headD NUL = NUL then
    Parsed.args ((gobble pre rest).1.reverse ++ (gobble pre rest).2) argv
  else if argv.length = MAXARGS - 1 then Parsed.overflow
  else
    parse_loop (skiparg (gobble pre rest).1 (gobble pre rest).2).1
      (skiparg (gobble pre rest).1 (gobble pre rest).2).2
      (argv ++ [(gobble pre rest).1.length])
termination_by rest.length
decreasing_by
  have h1 := gobble_length_le pre rest
  have h2 := skiparg_length_lt (gobble pre rest).1 (gobble pre rest).2 h
    ((gobble_head pre rest).resolve_left h)
  omega

/-- The C string that starts at offset `p` of the buffer. -/
def cstring (buf : List Char) (p : Nat) : String :=
  String.mk ((buf.drop p).takeWhile (fun c => decide (c ≠ NUL)))

/-- The output of the `Too many arguments` branch. -/
def tooManyArgs : Event := Event.cprintf "Too many arguments (max %d)\n" [Arg.int MAXARGS]

/-- The loop `for (i = 0; i < ARRAY_SIZE(commands); i++)` of `runcmd` over the
entries of the table not yet tried, followed by the `Unknown command` tail;
`strcmp(a, b) == 0` is equality of the two strings. -/
def lookup (K : Kernel) (fuel : Nat) (argv : List String) (tf : Option Trapframe) :
    List Command → Option Result
  | [] => some { out := [Event.cprintf "Unknown command \x27%s\x27\n" [Arg.str (argv.headD "")]],
                 tf := tf, ctl := Ctl.ret 0 }
  | c :: cs =>
    if argv.headD "" = c.name then c.func K fuel argv.length argv tf
    else lookup K fuel argv tf cs

/-- The function `runcmd`. The argument `buf` lists the characters of the
command line up to its terminating byte; `fuel` is passed on to the command. -/
def runcmd (K : Kernel) (fuel : Nat) (buf : List Char) (tf : Option Trapframe) : Option Result :=
  match parse_loop [] buf [] with
  | Parsed.overflow => some { out := [tooManyArgs], tf := tf, ctl := Ctl.ret 0 }
  | Parsed.args b argv =>
    if argv.length = 0 then some { out := [], tf := tf, ctl := Ctl.ret 0 }
    else lookup K fuel (argv.map (cstring b)) tf commands

/-! ## `monitor` -/

/-- How `monitor` ends. -/
inductive Exit where
  /-- The loop was left by `break` and `monitor` returned. -/
  | returned
  /-- A command resumed the halted execution. -/
  | iret (cpu : Resumed)
  /-- A command dereferenced a null trap frame. -/
  | fault
  deriving DecidableEq, Repr

/-- Outcome of `monitor`: its console trace, the trap frame afterwards, how it
ended. -/
structure Session where
  out : List Event
  tf : Option Trapframe
  exit : Exit
  deriving DecidableEq, Repr

/-- Puts a trace in front of the trace of a later outcome. -/
def Session.after (pre : List Event) (s : Session) : Session := { s with out := pre ++ s.out }

/-- The prompt passed to `readline`. -/
def prompt : Event := Event.readline "K> "

/-- The diagnostic printed when a command returns a negative status. -/
def commandFailed : Event := Event.cprintf "Command failed!\n" []

/-- The loop `while (1) { buf = readline("K> "); ... }` of `monitor`.
`input n` is what the call number `n` of `readline` returns (`none` for
`NULL`); the loop is entered with `n` calls made so far. The fuel bounds the
number of iterations, and what is left of it is passed to `runcmd`. -/
def monitor_loop (K : Kernel) (input : Nat → Option (List Char)) :
    Nat → Nat → Option Trapframe → Option Session
  | 0, _, _ => none
  | fuel + 1, n, tf =>
    match input n with
    | none => (monitor_loop K input fuel (n + 1) tf).map (Session.after [prompt])
    | some buf =>
      match runcmd K fuel buf tf with
      | none => none
      | some r =>
        match r.ctl with
        | Ctl.ret st =>
          if st < 0 then
            some { out := prompt :: r.out ++ [commandFailed], tf := r.tf, exit := Exit.returned }
          else (monitor_loop K input fuel (n + 1) r.tf).map (Session.after (prompt :: r.out))
        | Ctl.iret cpu => some { out := prompt :: r.out, tf := r.tf, exit := Exit.iret cpu }
        | Ctl.fault => some { out := prompt :: r.out, tf := r.tf, exit := Exit.fault }

/-- The function `monitor`. -/
def monitor (K : Kernel) (input : Nat → Option (List Char)) (fuel : Nat)
    (tf : Option Trapframe) : Option Session :=
  (monitor_loop K input fuel 0 tf).map
    (Session.after
      ([Event.cprintf "Welcome to the JOS kernel monitor!\n" [],
        Event.cprintf "Type \x27help\x27 for a list of commands.\n" []] ++
       (match tf with
        | none => []
        | some t => K.print_trapframe t)))

/-! ## Vocabulary of the statements -/

/-- The resolver accepts the address: `debuginfo_eip` does not return `-1`,
whatever `info` holds when it is called. -/
def Resolvable (K : Kernel) (addr : Nat) : Prop :=
  ∀ info, (K.debuginfo_eip addr info).1 ≠ -1

/-- The resolver rejects the address: `debuginfo_eip` returns `-1`. -/
def Unresolvable (K : Kernel) (addr : Nat) : Prop :=
  ∀ info, (K.debuginfo_eip addr info).1 = -1

/-- A frame-pointer chain: `chain` lists the non-null frame pointers met from
`ebp` on by following the saved frame pointer `ebp[0]`, and the saved frame
pointer of its last frame is `last` (`ebp` itself for the empty chain). -/
def ChainFrom (mem : Mem) : Nat → List Nat → Nat → Prop
  | ebp, [], last => ebp = last
  | ebp, e :: es, last => ebp = e ∧ e ≠ 0 ∧ ChainFrom mem (rd mem e 0) es last

/-- The contents of `info` after the resolver has been called on the return
addresses of the frames of `chain`, in order. -/
def infoAfter (K : Kernel) : Eipdebuginfo → List Nat → Eipdebuginfo
  | info, [] => info
  | info, e :: es => infoAfter K (K.debuginfo_eip (rd K.mem e 1) info).2 es

/-- The trace of a walk over the frames of `chain`, all of them resolved: for
each frame, in the order of the list, its frame line followed by its symbol
line. -/
def emitFrames (K : Kernel) : Eipdebuginfo → List Nat → List Event
  | _, [] => []
  | info, e :: es =>
    frameLine K.mem e :: symLine (K.debuginfo_eip (rd K.mem e 1) info).2 (rd K.mem e 1) ::
      emitFrames K (K.debuginfo_eip (rd K.mem e 1) info).2 es

/-- The frame pointer printed by a frame line; `none` for any other event. -/
def frameEbp : Event → Option Nat
  | Event.cprintf fmt (Arg.word ebp :: _) =>
    if fmt = "  ebp %08x  eip %08x  args %08x %08x %08x %08x %08x\n" then some ebp else none
  | _ => none

/-- Whether an event is a symbol line. -/
def isSymLine : Event → Bool
  | Event.cprintf fmt _ => decide (fmt = "       %s:%d: %.*s+%d\n")
  | _ => false

/-- The frame pointer held by `ebp` at the `n`-th test of the loop condition of
`mon_backtrace`, when no lookup has failed before. -/
def framePtr (K : Kernel) (n : Nat) : Nat :=
  Nat.iterate (fun e => rd K.mem e 0) n (w32 K.read_ebp)

/-- A kernel for examples: stack memory holds the three frames `0x1000`,
`0x2000`, `0x3000` (each frame saves the next frame pointer, the last saves
`0`) with return addresses `0x101`, `0x102`, `0x103`, the frame pointer
register holds `0x1000`, and the resolver accepts every address below
`resolveLimit`, reporting a function that starts at `0x100`. -/
def exampleKernel (resolveLimit : Nat) : Kernel :=
  { T_BRKPT := 3, T_DEBUG := 1, FL_TF := 0x100, FL_IF := 0x200,
    read_ebp := 0x1000, read_eflags := 0x2,
    mem := fun a =>
      if a = 0x1000 then 0x2000 else if a = 0x1004 then 0x101
      else if a = 0x2000 then 0x3000 else if a = 0x2004 then 0x102
      else if a = 0x3004 then 0x103 else 0,
    debuginfo_eip := fun addr _ =>
      if addr < resolveLimit then
        (0, { eip_file := some "kern/init.c", eip_line := 24, eip_fn_name := some "test_backtrace",
              eip_fn_namelen := 14, eip_fn_addr := 0x100 })
      else
        (-1, { eip_file := some "<unknown>", eip_line := 0, eip_fn_name := some "<unknown>",
               eip_fn_namelen := 9, eip_fn_addr := addr }),
    print_trapframe := fun _ => [],
    sym_start := 0x10000c, sym_entry := 0xf010000c, sym_etext := 0xf0101a75,
    sym_edata := 0xf0112300, sym_end := 0xf0112960, KERNBASE := 0xf0000000,
    ROUNDUP := fun a n => (a + n - 1) - (a + n - 1) % n }

/-- Whitespace, as the specification lists it: tab, carriage return, newline
and space. -/
def isSpace (c : Char) : Bool :=
  c == '\t' || c == '\r' || c == '\n' || c == ' '

/-- The whitespace-separated tokens of a line, as the specification has them:
the line is split at every whitespace character and the empty pieces are
dropped, which leaves the maximal runs of non-whitespace characters in
left-to-right order. -/
def tokens (line : List Char) : List (List Char) :=
  (line.splitOnP isSpace).filter (fun t => !t.isEmpty)

/-- The maximal runs of non-whitespace characters of a line, as a relation
between the line and the list of its runs, in left-to-right order: whitespace
is passed over, and a run is a non-empty stretch of non-whitespace characters
that ends at the end of the line or right before a whitespace character. -/
inductive MaximalRuns : List Char → List (List Char) → Prop where
  | done : MaximalRuns [] []
  | space (c : Char) (line : List Char) (runs : List (List Char)) :
      isSpace c = true → MaximalRuns line runs → MaximalRuns (c :: line) runs
  | run (t line : List Char) (runs : List (List Char)) :
      t ≠ [] → (∀ c ∈ t, isSpace c = false) → (∀ c, line.head? = some c → isSpace c = true) →
      MaximalRuns line runs → MaximalRuns (t ++ line) (t :: runs)

/-- The `Unknown command` message of `runcmd` for the first token `tok`. -/
def unknownCommand (tok : String) : Event :=
  Event.cprintf "Unknown command \x27%s\x27\n" [Arg.str tok]

/-- A line of `n` tokens: the word `backtrace` followed by `n - 1` words `x`,
separated by single spaces. -/
def exampleLine (n : Nat) : List Char :=
  "backtrace".toList ++ (List.replicate (n - 1) [' ', 'x']).flatten

/-- An input source for examples: the first call of `readline` yields `NULL`,
every later call the line `si`. -/
def nullThenSi (n : Nat) : Option (List Char) :=
  if n = 0 then none else some ['s', 'i']

/-- A trap frame for examples, with the given trap number and flags word. -/
def exampleFrame (trapno eflags : Nat) : Trapframe :=
  { tf_regs := { reg_edi := 1, reg_esi := 2, reg_ebp := 0x1000, reg_oesp := 0xefc, reg_ebx := 3,
                 reg_edx := 4, reg_ecx := 5, reg_eax := 6 },
    tf_es := 0x10, tf_ds := 0x10, tf_trapno := trapno, tf_err := 0, tf_eip := 0x800020,
    tf_cs := 0x8, tf_eflags := eflags, tf_esp := 0, tf_ss := 0 }

/-- A kernel whose stack is corrupted: every word of memory holds `8`, so the
frame at `8` saves itself as the previous frame; every address resolves. -/
def cyclicKernel : Kernel :=
  { exampleKernel (2 ^ 32) with read_ebp := 8, mem := fun _ => 8 }

/-! ## Lemmas on the backtrace walk -/

theorem backtrace_loop_zero (K : Kernel) (fuel : Nat) (info : Eipdebuginfo) :
    backtrace_loop K fuel 0 info = some (0, []) := by
  cases fuel <;> simp [backtrace_loop]

theorem backtrace_loop_chain (K : Kernel) (chain : List Nat) :
    ∀ (fuel ebp last : Nat) (info : Eipdebuginfo),
      ChainFrom K.mem ebp chain last →
      (∀ e ∈ chain, Resolvable K (rd K.mem e 1)) →
      backtrace_loop K (chain.length + fuel) ebp info =
        (backtrace_loop K fuel last (infoAfter K info chain)).map
          (fun r => (r.1, emitFrames K info chain ++ r.2)) := by
  induction chain with
  | nil =>
    intro fuel ebp last info hch _
    simp only [ChainFrom] at hch
    subst hch
    simp [infoAfter, emitFrames]
  | cons e es ih =>
    intro fuel ebp last info hch hres
    obtain ⟨rfl, hne, hrest⟩ := hch
    have hr : (K.debuginfo_eip (rd K.mem ebp 1) info).1 ≠ -1 :=
      hres ebp (List.mem_cons_self _ _) info
    have hstep : (es.length + 1) + fuel = (es.length + fuel) + 1 := by omega
    rw [List.length_cons, hstep, backtrace_loop, if_neg hne]
    simp only [if_neg hr]
    rw [ih fuel _ last _ hrest (fun x hx => hres x (List.mem_cons_of_mem _ hx))]
    simp only [infoAfter]
    generalize backtrace_loop K fuel last
      (infoAfter K (K.debuginfo_eip (rd K.mem ebp 1) info).2 es) = b
    cases b with
    | none => rfl
    | some r => simp [emitFrames]

theorem emitFrames_frameEbp (K : Kernel) (chain : List Nat) :
    ∀ info, (emitFrames K info chain).filterMap frameEbp = chain := by
  induction chain with
  | nil => intro info; rfl
  | cons e es ih =>
    intro info
    have hsym : ∀ i a, frameEbp (symLine i a) = none := by
      intro i a
      cases hf : i.eip_file <;> simp [symLine, Arg.ofPtr, frameEbp, hf]
    have hfr : frameEbp (frameLine K.mem e) = some e := by simp [frameLine, frameEbp]
    rw [emitFrames, List.filterMap_cons_some hfr, List.filterMap_cons_none (hsym _ _), ih]

theorem emitFrames_symLines (K : Kernel) (chain : List Nat) :
    ∀ info, ((emitFrames K info chain).filter isSymLine).length = chain.length := by
  induction chain with
  | nil => intro info; rfl
  | cons e es ih =>
    intro info
    simp [emitFrames, frameLine, symLine, isSymLine, ih]

theorem frameLine_congr (mem mem2 : Mem) (e : Nat)
    (h : ∀ i, 1 ≤ i → i ≤ 6 → rd mem2 e i = rd mem e i) :
    frameLine mem2 e = frameLine mem e := by
  simp [frameLine, h]

theorem chainFrom_congr (mem mem2 : Mem) (chain : List Nat) :
    ∀ (ebp last : Nat), (∀ e ∈ chain, rd mem2 e 0 = rd mem e 0) →
      ChainFrom mem ebp chain last → ChainFrom mem2 ebp chain last := by
  induction chain with
  | nil => intro ebp last _ h; exact h
  | cons e es ih =>
    intro ebp last hag h
    obtain ⟨h1, h2, h3⟩ := h
    refine ⟨h1, h2, ?_⟩
    rw [hag e (List.mem_cons_self _ _)]
    exact ih _ _ (fun x hx => hag x (List.mem_cons_of_mem _ hx)) h3

theorem emitFrames_congr (K : Kernel) (mem2 : Mem) (chain : List Nat) :
    ∀ info, (∀ e ∈ chain, ∀ i, 1 ≤ i → i ≤ 6 → rd mem2 e i = rd K.mem e i) →
      emitFrames { K with mem := mem2 } info chain = emitFrames K info chain := by
  induction chain with
  | nil => intro info _; rfl
  | cons e es ih =>
    intro info hag
    have he := hag e (List.mem_cons_self _ _)
    have h1 : rd mem2 e 1 = rd K.mem e 1 := he 1 (by omega) (by omega)
    simp only [emitFrames, h1, frameLine_congr K.mem mem2 e he]
    rw [ih _ (fun x hx => hag x (List.mem_cons_of_mem _ hx))]

/-! ## The backtrace walk: statements -/

/-- C1: on a frame-pointer chain of `N` frames that starts at the initial frame
pointer, follows the saved frame pointers and ends in the sentinel `0`, with
every return address resolvable, `mon_backtrace` (given fuel for `N`
iterations) returns `0` after printing the heading and then, for each frame of
the chain in order, innermost first, its frame line and its symbol line: the
frame pointers printed are exactly those of the chain and there are `N` symbol
lines. -/
theorem mon_backtrace_full_walk (K : Kernel) (chain : List Nat) (fuel argc : Nat)
    (argv : List String) (tf : Option Trapframe)
    (hchain : ChainFrom K.mem (w32 K.read_ebp) chain 0)
    (hres : ∀ e ∈ chain, Resolvable K (rd K.mem e 1))
    (hfuel : chain.length ≤ fuel) :
    mon_backtrace K fuel argc argv tf =
        some { out := backtraceHeading :: emitFrames K Eipdebuginfo.zero chain,
               tf := tf, ctl := Ctl.ret 0 } ∧
      (emitFrames K Eipdebuginfo.zero chain).filterMap frameEbp = chain ∧
      ((emitFrames K Eipdebuginfo.zero chain).filter isSymLine).length = chain.length := by
  refine ⟨?_, emitFrames_frameEbp K chain _, emitFrames_symLines K chain _⟩
  obtain ⟨d, rfl⟩ := Nat.exists_eq_add_of_le hfuel
  unfold mon_backtrace
  rw [backtrace_loop_chain K chain d _ 0 _ hchain hres, backtrace_loop_zero]
  simp

/-- C2: when the first `k-1` frames of the chain (`pre`) have resolvable return
addresses and the return address of the `k`-th frame `ek` is unresolvable,
`mon_backtrace` returns `-1`; its trace is the heading, the frame and symbol
lines of the first `k-1` frames and the frame line of the `k`-th, so exactly
`k-1` symbol lines are printed and no frame after the `k`-th appears; and the
result does not depend on the saved frame pointer of the `k`-th frame nor on
any word of memory outside words `0..6` of the first `k-1` frames and words
`1..6` of the `k`-th. -/
theorem mon_backtrace_lookup_failure (K : Kernel) (pre : List Nat) (ek fuel argc : Nat)
    (argv : List String) (tf : Option Trapframe)
    (hchain : ChainFrom K.mem (w32 K.read_ebp) pre ek) (hek : ek ≠ 0)
    (hres : ∀ e ∈ pre, Resolvable K (rd K.mem e 1))
    (hbad : Unresolvable K (rd K.mem ek 1))
    (hfuel : pre.length < fuel) :
    mon_backtrace K fuel argc argv tf =
        some { out := backtraceHeading ::
                 (emitFrames K Eipdebuginfo.zero pre ++ [frameLine K.mem ek]),
               tf := tf, ctl := Ctl.ret (-1) } ∧
      ((backtraceHeading :: (emitFrames K Eipdebuginfo.zero pre ++ [frameLine K.mem ek])).filter
          isSymLine).length = pre.length ∧
      (backtraceHeading :: (emitFrames K Eipdebuginfo.zero pre ++ [frameLine K.mem ek])).filterMap
          frameEbp = pre ++ [ek] ∧
      ∀ mem2 : Mem,
        (∀ e ∈ pre, ∀ i, i ≤ 6 → rd mem2 e i = rd K.mem e i) →
        (∀ i, 1 ≤ i → i ≤ 6 → rd mem2 ek i = rd K.mem ek i) →
        mon_backtrace { K with mem := mem2 } fuel argc argv tf =
          mon_backtrace K fuel argc argv tf := by
  have key : ∀ K2 : Kernel, ChainFrom K2.mem (w32 K2.read_ebp) pre ek →
      (∀ e ∈ pre, Resolvable K2 (rd K2.mem e 1)) → Unresolvable K2 (rd K2.mem ek 1) →
      mon_backtrace K2 fuel argc argv tf =
        some { out := backtraceHeading ::
                 (emitFrames K2 Eipdebuginfo.zero pre ++ [frameLine K2.mem ek]),
               tf := tf, ctl := Ctl.ret (-1) } := by
    intro K2 hc hr hb
    obtain ⟨d, hd⟩ := Nat.exists_eq_add_of_lt hfuel
    have hd2 : fuel = pre.length + (d + 1) := by omega
    subst hd2
    unfold mon_backtrace
    rw [backtrace_loop_chain K2 pre (d + 1) _ ek _ hc hr, backtrace_loop, if_neg hek]
    simp [hb _]
  refine ⟨key K hchain hres hbad, ?_, ?_, ?_⟩
  · have hfr : isSymLine (frameLine K.mem ek) = false := by simp [frameLine, isSymLine]
    have hhd : isSymLine backtraceHeading = false := by simp [backtraceHeading, isSymLine]
    simp [List.filter_cons, hhd, hfr, emitFrames_symLines]
  · have hhd : frameEbp backtraceHeading = none := by simp [backtraceHeading, frameEbp]
    have hfr : frameEbp (frameLine K.mem ek) = some ek := by simp [frameLine, frameEbp]
    rw [List.filterMap_cons_none hhd, List.filterMap_append, emitFrames_frameEbp,
      List.filterMap_cons_some hfr, List.filterMap_nil]
  · intro mem2 hpre hk
    have h1 : ∀ e ∈ pre, rd mem2 e 1 = rd K.mem e 1 := fun e he => hpre e he 1 (by omega)
    have hk1 : rd mem2 ek 1 = rd K.mem ek 1 := hk 1 (by omega) (by omega)
    rw [key K hchain hres hbad, key { K with mem := mem2 }
      (chainFrom_congr K.mem mem2 pre _ _ (fun e he => hpre e he 0 (by omega)) hchain)
      (fun e he info => by
        have := hres e he info
        simpa [h1 e he] using this)
      (fun info => by
        have := hbad info
        simpa [hk1] using this)]
    rw [emitFrames_congr K mem2 pre _ (fun e he i _ hi => hpre e he i hi),
      frameLine_congr K.mem mem2 ek hk]

/-- Witness of C1: the three-frame example stack, every address resolvable. -/
theorem mon_backtrace_full_walk_witness :
    ChainFrom (exampleKernel (2 ^ 32)).mem (w32 (exampleKernel (2 ^ 32)).read_ebp)
        [0x1000, 0x2000, 0x3000] 0 ∧
      (∀ e ∈ [0x1000, 0x2000, 0x3000],
        Resolvable (exampleKernel (2 ^ 32)) (rd (exampleKernel (2 ^ 32)).mem e 1)) ∧
      mon_backtrace (exampleKernel (2 ^ 32)) 3 1 ["backtrace"] none =
        some { out := backtraceHeading ::
                 emitFrames (exampleKernel (2 ^ 32)) Eipdebuginfo.zero [0x1000, 0x2000, 0x3000],
               tf := none, ctl := Ctl.ret 0 } := by
  have hc : ChainFrom (exampleKernel (2 ^ 32)).mem (w32 (exampleKernel (2 ^ 32)).read_ebp)
      [0x1000, 0x2000, 0x3000] 0 := by
    simp [ChainFrom, exampleKernel, rd, w32]
  have hr : ∀ e ∈ [0x1000, 0x2000, 0x3000],
      Resolvable (exampleKernel (2 ^ 32)) (rd (exampleKernel (2 ^ 32)).mem e 1) := by
    intro e _ info
    have hlt : rd (exampleKernel (2 ^ 32)).mem e 1 < 2 ^ 32 := Nat.mod_lt _ (by norm_num)
    show (if rd (exampleKernel (2 ^ 32)).mem e 1 < 2 ^ 32 then _ else _ : Int × Eipdebuginfo).1 ≠ -1
    rw [if_pos hlt]
    decide
  exact ⟨hc, hr, (mon_backtrace_full_walk (exampleKernel (2 ^ 32)) [0x1000, 0x2000, 0x3000] 3 1
    ["backtrace"] none hc hr (by decide)).1⟩

/-- Witness of C2: on the example stack the second return address `0x102` is
the first one the resolver rejects. -/
theorem mon_backtrace_lookup_failure_witness :
    ChainFrom (exampleKernel 0x102).mem (w32 (exampleKernel 0x102).read_ebp) [0x1000] 0x2000 ∧
      (∀ e ∈ [0x1000], Resolvable (exampleKernel 0x102) (rd (exampleKernel 0x102).mem e 1)) ∧
      Unresolvable (exampleKernel 0x102) (rd (exampleKernel 0x102).mem 0x2000 1) ∧
      mon_backtrace (exampleKernel 0x102) 2 1 ["backtrace"] none =
        some { out := backtraceHeading ::
                 (emitFrames (exampleKernel 0x102) Eipdebuginfo.zero [0x1000] ++
                   [frameLine (exampleKernel 0x102).mem 0x2000]),
               tf := none, ctl := Ctl.ret (-1) } := by
  have hc : ChainFrom (exampleKernel 0x102).mem (w32 (exampleKernel 0x102).read_ebp)
      [0x1000] 0x2000 := by
    simp [ChainFrom, exampleKernel, rd, w32]
  have hr : ∀ e ∈ [0x1000],
      Resolvable (exampleKernel 0x102) (rd (exampleKernel 0x102).mem e 1) := by
    intro e he info
    simp only [List.mem_singleton] at he
    subst he
    simp [exampleKernel, rd, w32]
  have hb : Unresolvable (exampleKernel 0x102) (rd (exampleKernel 0x102).mem 0x2000 1) := by
    intro info
    simp [exampleKernel, rd, w32]
  exact ⟨hc, hr, hb, (mon_backtrace_lookup_failure (exampleKernel 0x102) [0x1000] 0x2000 2 1
    ["backtrace"] none hc (by decide) hr hb (by decide)).1⟩

theorem backtrace_loop_isSome_iff (K : Kernel) :
    ∀ (fuel ebp : Nat) (info : Eipdebuginfo),
      (∀ n, (∀ m, m ≤ n → Nat.iterate (fun e => rd K.mem e 0) m ebp ≠ 0) →
        Resolvable K (rd K.mem (Nat.iterate (fun e => rd K.mem e 0) n ebp) 1)) →
      ((backtrace_loop K fuel ebp info).isSome = true ↔
        ∃ n, n ≤ fuel ∧ Nat.iterate (fun e => rd K.mem e 0) n ebp = 0) := by
  intro fuel
  induction fuel with
  | zero =>
    intro ebp info _
    by_cases h0 : ebp = 0
    · subst h0
      simp [backtrace_loop]
    · simp [backtrace_loop, h0]
  | succ fuel ih =>
    intro ebp info hres
    by_cases h0 : ebp = 0
    · subst h0
      rw [backtrace_loop_zero]
      exact ⟨fun _ => ⟨0, Nat.zero_le _, rfl⟩, fun _ => rfl⟩
    · have hr : (K.debuginfo_eip (rd K.mem ebp 1) info).1 ≠ -1 := by
        refine hres 0 (fun m hm => ?_) info
        have hm0 : m = 0 := Nat.le_zero.mp hm
        subst hm0
        exact h0
      have hnext : ∀ n,
          (∀ m, m ≤ n → Nat.iterate (fun e => rd K.mem e 0) m (rd K.mem ebp 0) ≠ 0) →
          Resolvable K (rd K.mem (Nat.iterate (fun e => rd K.mem e 0) n (rd K.mem ebp 0)) 1) := by
        intro n hn
        refine hres (n + 1) (fun m hm => ?_)
        cases m with
        | zero => exact h0
        | succ m => exact hn m (Nat.le_of_succ_le_succ hm)
      have hrec := ih (rd K.mem ebp 0) (K.debuginfo_eip (rd K.mem ebp 1) info).2 hnext
      rw [backtrace_loop, if_neg h0]
      simp only [if_neg hr]
      constructor
      · intro hs
        have hs2 : (backtrace_loop K fuel (rd K.mem ebp 0)
            (K.debuginfo_eip (rd K.mem ebp 1) info).2).isSome = true := by
          cases hb : backtrace_loop K fuel (rd K.mem ebp 0)
              (K.debuginfo_eip (rd K.mem ebp 1) info).2 with
          | none => rw [hb] at hs; simp at hs
          | some r => rfl
        obtain ⟨n, hn, hz⟩ := hrec.mp hs2
        exact ⟨n + 1, Nat.succ_le_succ hn, hz⟩
      · rintro ⟨n, hn, hz⟩
        cases n with
        | zero => exact absurd hz h0
        | succ m =>
          have hs2 := hrec.mpr ⟨m, Nat.le_of_succ_le_succ hn, hz⟩
          cases hb : backtrace_loop K fuel (rd K.mem ebp 0)
              (K.debuginfo_eip (rd K.mem ebp 1) info).2 with
          | none => rw [hb] at hs2; simp at hs2
          | some r => rfl

theorem mon_backtrace_isSome (K : Kernel) (fuel argc : Nat) (argv : List String)
    (tf : Option Trapframe) :
    (mon_backtrace K fuel argc argv tf).isSome =
      (backtrace_loop K fuel (w32 K.read_ebp) Eipdebuginfo.zero).isSome := by
  unfold mon_backtrace
  cases backtrace_loop K fuel (w32 K.read_ebp) Eipdebuginfo.zero <;> rfl

theorem framePtr_cyclicKernel (n : Nat) : framePtr cyclicKernel n = 8 := by
  induction n with
  | zero => simp [framePtr, cyclicKernel, w32]
  | succ n ih =>
    unfold framePtr at ih ⊢
    rw [Function.iterate_succ_apply', ih]
    simp [cyclicKernel, rd, w32]

theorem resolvable_exampleKernel_all (K : Kernel) (addr : Nat)
    (hK : K.debuginfo_eip = (exampleKernel (2 ^ 32)).debuginfo_eip) (h : addr < 2 ^ 32) :
    Resolvable K addr := by
  intro info
  rw [hK]
  show (if addr < 2 ^ 32 then _ else _ : Int × Eipdebuginfo).1 ≠ -1
  rw [if_pos h]
  decide

/-- C7, as stated, fails: on the corrupted stack of `cyclicKernel`, where the
frame at `8` saves its own address as the previous frame pointer and every
return address resolves, the walk of `mon_backtrace` is never left, whatever
the number of iterations allowed. -/
theorem mon_backtrace_cycle_never_returns :
    (∀ n, Resolvable cyclicKernel (rd cyclicKernel.mem (framePtr cyclicKernel n) 1)) ∧
      rd cyclicKernel.mem (w32 cyclicKernel.read_ebp) 0 = w32 cyclicKernel.read_ebp ∧
      ¬ ∃ fuel, (mon_backtrace cyclicKernel fuel 1 ["backtrace"] none).isSome = true := by
  have hres : ∀ n, Resolvable cyclicKernel (rd cyclicKernel.mem (framePtr cyclicKernel n) 1) :=
    fun n => resolvable_exampleKernel_all _ _ rfl (Nat.mod_lt _ (by norm_num))
  refine ⟨hres, by simp [cyclicKernel, rd, w32], ?_⟩
  rintro ⟨fuel, hf⟩
  rw [mon_backtrace_isSome] at hf
  obtain ⟨n, -, hz⟩ :=
    (backtrace_loop_isSome_iff cyclicKernel fuel _ _ (fun n _ => hres n)).mp hf
  have h8 := framePtr_cyclicKernel n
  unfold framePtr at h8
  rw [hz] at h8
  exact absurd h8 (by decide)

/-- C7, amended: when every frame of the chain (every frame pointer reached
from the initial one without passing the sentinel) has a resolvable return
address, the walk of `mon_backtrace` ends exactly when the frame-pointer chain
reaches the sentinel `0`; on a chain that never reaches it (a cycle) the walk
is never left. -/
theorem mon_backtrace_returns_iff_sentinel (K : Kernel) (argc : Nat) (argv : List String)
    (tf : Option Trapframe)
    (hres : ∀ n, (∀ m, m ≤ n → framePtr K m ≠ 0) → Resolvable K (rd K.mem (framePtr K n) 1)) :
    (∃ fuel, (mon_backtrace K fuel argc argv tf).isSome = true) ↔ ∃ n, framePtr K n = 0 := by
  constructor
  · rintro ⟨fuel, hf⟩
    rw [mon_backtrace_isSome] at hf
    obtain ⟨n, -, hz⟩ := (backtrace_loop_isSome_iff K fuel _ _ hres).mp hf
    exact ⟨n, hz⟩
  · rintro ⟨n, hz⟩
    refine ⟨n, ?_⟩
    rw [mon_backtrace_isSome]
    exact (backtrace_loop_isSome_iff K n _ _ hres).mpr ⟨n, Nat.le_refl _, hz⟩

/-- Witness of C7 (amended): the example stack reaches the sentinel after
three frames, and the walk returns. -/
theorem mon_backtrace_returns_iff_sentinel_witness :
    (∀ n, (∀ m, m ≤ n → framePtr (exampleKernel (2 ^ 32)) m ≠ 0) →
        Resolvable (exampleKernel (2 ^ 32))
          (rd (exampleKernel (2 ^ 32)).mem (framePtr (exampleKernel (2 ^ 32)) n) 1)) ∧
      framePtr (exampleKernel (2 ^ 32)) 3 = 0 ∧
      ((∃ fuel, (mon_backtrace (exampleKernel (2 ^ 32)) fuel 1 ["backtrace"] none).isSome = true) ↔
        ∃ n, framePtr (exampleKernel (2 ^ 32)) n = 0) :=
  ⟨fun _ _ => resolvable_exampleKernel_all _ _ rfl (Nat.mod_lt _ (by norm_num)),
   by simp [framePtr, exampleKernel, rd, w32],
   mon_backtrace_returns_iff_sentinel (exampleKernel (2 ^ 32)) 1 ["backtrace"] none
     (fun _ _ => resolvable_exampleKernel_all _ _ rfl (Nat.mod_lt _ (by norm_num)))⟩

/-! ## The resume commands: statements -/

/-- C3: evaluation at a breakpoint trap frame whose captured flags are `0x202`
(interrupt-enable bit 9 set, single-step bit 8 clear). The claim gives `0x202`
as the flags word handed to `iret` by `continue`; `mon_break_continue` hands
over `0`: the mask `0x11111011` clears the interrupt-enable bit as well. -/
theorem mon_break_continue_flags_0x202 :
    (mon_break_continue (exampleKernel 0) 1 ["continue"] (some (exampleFrame 3 0x202))).ctl =
        Ctl.iret { resume (exampleFrame 3 0x202) with eflags := 0 } ∧
      Nat.testBit (exampleFrame 3 0x202).tf_eflags 9 = true ∧
      Nat.testBit (0 : Nat) 9 = false := by
  refine ⟨?_, by decide, by decide⟩
  simp [mon_break_continue, exampleKernel, exampleFrame, resume]
  decide

/-- C4: evaluation at the same breakpoint trap frame, captured flags `0x202`.
`si` hands `0x302` to `iret` and `continue` hands `0`: the two words differ in
bits 1, 8 and 9 (their exclusive or is `0x302`), not in bit 8 alone. -/
theorem mon_break_step_continue_flags_0x202 :
    (mon_break_step (exampleKernel 0) 1 ["si"] (some (exampleFrame 3 0x202))).ctl =
        Ctl.iret { resume (exampleFrame 3 0x202) with eflags := 0x302 } ∧
      (mon_break_continue (exampleKernel 0) 1 ["continue"] (some (exampleFrame 3 0x202))).ctl =
        Ctl.iret { resume (exampleFrame 3 0x202) with eflags := 0 } ∧
      (0x302 : Nat) ^^^ 0 ≠ 0x100 := by
  refine ⟨?_, ?_, by decide⟩
  · simp [mon_break_step, exampleKernel, exampleFrame, resume]
  · simp [mon_break_continue, exampleKernel, exampleFrame, resume]
    decide

/-- C5: for a trap frame whose trap number is the breakpoint or the debug trap,
`mon_break_step` ends in `iret` with the registers of the trap frame and the
flags word `f ||| 0x100`, where `f` is the captured flags word: bit 8 (the
single-step bit) is set and every other bit is the bit of `f`. -/
theorem mon_break_step_flags (K : Kernel) (argc : Nat) (argv : List String) (t : Trapframe)
    (htrap : t.tf_trapno = K.T_BRKPT ∨ t.tf_trapno = K.T_DEBUG) :
    (mon_break_step K argc argv (some t)).ctl =
        Ctl.iret { resume t with eflags := t.tf_eflags ||| 0x100 } ∧
      Nat.testBit (t.tf_eflags ||| 0x100) 8 = true ∧
      ∀ i, i ≠ 8 → Nat.testBit (t.tf_eflags ||| 0x100) i = Nat.testBit t.tf_eflags i := by
  have hguard : ¬ (t.tf_trapno ≠ K.T_BRKPT ∧ t.tf_trapno ≠ K.T_DEBUG) := by
    rintro ⟨h1, h2⟩
    exact htrap.elim h1 h2
  have h256 : (0x100 : Nat) = 2 ^ 8 := by norm_num
  refine ⟨?_, ?_, ?_⟩
  · simp [mon_break_step, hguard, resume]
  · rw [h256, Nat.testBit_or, Nat.testBit_two_pow_self, Bool.or_true]
  · intro i hi
    rw [h256, Nat.testBit_or, Nat.testBit_two_pow_of_ne (Ne.symm hi), Bool.or_false]

/-- Witness of C5: a debug trap with captured flags `0x202` is resumed by `si`
with flags `0x302`. -/
theorem mon_break_step_flags_witness :
    (exampleFrame 1 0x202).tf_trapno = (exampleKernel 0).T_DEBUG ∧
      (mon_break_step (exampleKernel 0) 1 ["si"] (some (exampleFrame 1 0x202))).ctl =
        Ctl.iret { resume (exampleFrame 1 0x202) with eflags := 0x202 ||| 0x100 } :=
  ⟨rfl, (mon_break_step_flags (exampleKernel 0) 1 ["si"] (exampleFrame 1 0x202) (Or.inr rfl)).1⟩

/-- C6: for a trap frame whose trap number is neither the breakpoint nor the
debug trap, `mon_break_continue` and `mon_break_step` both return `-1` with an
empty console trace, the trap frame unchanged and no `iret`. -/
theorem mon_break_refused (K : Kernel) (argc : Nat) (argv : List String) (t : Trapframe)
    (hb : t.tf_trapno ≠ K.T_BRKPT) (hd : t.tf_trapno ≠ K.T_DEBUG) :
    mon_break_continue K argc argv (some t) = { out := [], tf := some t, ctl := Ctl.ret (-1) } ∧
      mon_break_step K argc argv (some t) = { out := [], tf := some t, ctl := Ctl.ret (-1) } := by
  simp [mon_break_continue, mon_break_step, hb, hd]

/-- Witness of C6: a page-fault trap frame (trap number 14). -/
theorem mon_break_refused_witness :
    (exampleFrame 14 0x202).tf_trapno ≠ (exampleKernel 0).T_BRKPT ∧
      (exampleFrame 14 0x202).tf_trapno ≠ (exampleKernel 0).T_DEBUG ∧
      mon_break_continue (exampleKernel 0) 1 ["continue"] (some (exampleFrame 14 0x202)) =
        { out := [], tf := some (exampleFrame 14 0x202), ctl := Ctl.ret (-1) } ∧
      mon_break_step (exampleKernel 0) 1 ["si"] (some (exampleFrame 14 0x202)) =
        { out := [], tf := some (exampleFrame 14 0x202), ctl := Ctl.ret (-1) } :=
  ⟨by decide, by decide,
   mon_break_refused (exampleKernel 0) 1 ["si"] (exampleFrame 14 0x202) (by decide) (by decide)⟩

/-! ## Lemmas on the tokenising loop -/

theorem strchr_WHITESPACE (c : Char) (_hc : c ≠ NUL) : strchr WHITESPACE c = isSpace c := by
  have h9 : Char.ofNat 9 = '\t' := by decide
  have h13 : Char.ofNat 13 = '\r' := by decide
  have h10 : Char.ofNat 10 = '\n' := by decide
  have h32 : Char.ofNat 32 = ' ' := by decide
  have hb : ∀ a b : Char, (a == b) = decide (a = b) := fun a b => by
    by_cases h : a = b <;> simp [h]
  simp [strchr, WHITESPACE, isSpace, h9, h13, h10, h32, hb, Bool.or_assoc]

theorem tokens_nil : tokens [] = [] := by
  simp [tokens]

theorem tokens_cons_space (c : Char) (r : List Char) (hc : isSpace c = true) :
    tokens (c :: r) = tokens r := by
  simp [tokens, hc]

theorem splitOnP_takeWhile (r : List Char) :
    ∃ X, r.splitOnP isSpace = r.takeWhile (fun c => !isSpace c) :: X ∧
      X.filter (fun t => !t.isEmpty) = tokens (r.dropWhile (fun c => !isSpace c)) := by
  induction r with
  | nil => exact ⟨[], rfl, by simp [tokens_nil]⟩
  | cons d r ih =>
    obtain ⟨X, hX, hf⟩ := ih
    cases hd : isSpace d with
    | true =>
      refine ⟨r.splitOnP isSpace, by simp [hd], ?_⟩
      simp [hd, tokens]
    | false =>
      refine ⟨X, by simp [hd, hX], ?_⟩
      simpa [hd] using hf

theorem tokens_cons_nonspace (c : Char) (r : List Char) (hc : isSpace c = false) :
    tokens (c :: r) =
      (c :: r.takeWhile (fun c => !isSpace c)) :: tokens (r.dropWhile (fun c => !isSpace c)) := by
  obtain ⟨X, hX, hf⟩ := splitOnP_takeWhile r
  simp [tokens, hc, hX, hf]

theorem skiparg_eq (rest : List Char) (hnul : NUL ∉ rest) :
    ∀ pre, skiparg pre rest =
      ((rest.takeWhile (fun c => !isSpace c)).reverse ++ pre,
        rest.dropWhile (fun c => !isSpace c)) := by
  induction rest with
  | nil => intro pre; simp [skiparg]
  | cons d r ih =>
    intro pre
    have hd : d ≠ NUL := fun h => hnul (h ▸ List.mem_cons_self _ _)
    have hr : NUL ∉ r := fun h => hnul (List.mem_cons_of_mem _ h)
    rw [skiparg, strchr_WHITESPACE d hd]
    cases hs : isSpace d with
    | true => simp [hd, hs]
    | false => simp [hd, hs, ih hr]

theorem parse_loop_nil (pre : List Char) (argv : List Nat) :
    parse_loop pre [] argv = Parsed.args pre.reverse argv := by
  rw [parse_loop]
  simp [gobble]

theorem parse_loop_cons_space (pre : List Char) (c : Char) (r : List Char) (argv : List Nat)
    (hc : c ≠ NUL) (hs : isSpace c = true) :
    parse_loop pre (c :: r) argv = parse_loop (NUL :: pre) r argv := by
  have hg : gobble pre (c :: r) = gobble (NUL :: pre) r := by
    rw [gobble, strchr_WHITESPACE c hc, if_pos ⟨hc, hs⟩]
  rw [parse_loop, hg, ← parse_loop]

theorem parse_loop_cons_nonspace (pre : List Char) (c : Char) (r : List Char) (argv : List Nat)
    (hc : c ≠ NUL) (hs : isSpace c = false) :
    parse_loop pre (c :: r) argv =
      if argv.length = 15 then Parsed.overflow
      else parse_loop (skiparg pre (c :: r)).1 (skiparg pre (c :: r)).2 (argv ++ [pre.length]) := by
  have hg : gobble pre (c :: r) = (pre, c :: r) := by
    rw [gobble, strchr_WHITESPACE c hc]
    simp [hs]
  rw [parse_loop, hg]
  simp [hc, MAXARGS]

theorem takeWhile_append_stop (tok S : List Char) (htok : NUL ∉ tok)
    (hS : S.headD NUL = NUL) :
    (tok ++ S).takeWhile (fun c => decide (c ≠ NUL)) = tok := by
  induction tok with
  | nil =>
    cases S with
    | nil => rfl
    | cons d S =>
      simp only [List.headD_cons] at hS
      simp [hS]
  | cons d tok ih =>
    have hd : d ≠ NUL := fun h => htok (h ▸ List.mem_cons_self _ _)
    have ht : NUL ∉ tok := fun h => htok (List.mem_cons_of_mem _ h)
    rw [List.cons_append, List.takeWhile_cons, ih ht]
    simp [hd]

theorem cstring_at_token (pre tok S : List Char) (htok : NUL ∉ tok) (hS : S.headD NUL = NUL) :
    cstring (pre.reverse ++ (tok ++ S)) pre.length = String.mk tok := by
  have hdrop : (pre.reverse ++ (tok ++ S)).drop pre.length = tok ++ S := by
    have hl : pre.length = pre.reverse.length := by simp
    rw [hl, List.drop_left]
  rw [cstring, hdrop, takeWhile_append_stop tok S htok hS]

theorem dropWhile_nonspace_head (r : List Char) (c : Char) (r2 : List Char)
    (h : r.dropWhile (fun c => !isSpace c) = c :: r2) : isSpace c = true := by
  have := List.head?_dropWhile_not (fun c => !isSpace c) r
  rw [h] at this
  simpa using this

/-- What the tokenising loop computes, from any point of the line on: with
`argc` pointers stored so far, the loop overflows exactly when `argc` plus the
number of tokens still ahead exceeds `15`; otherwise it leaves the buffer as
the bytes before the pointer followed by a rewritten remainder, and appends one
pointer for each token ahead, at which the buffer holds that token as a C
string. -/
theorem parse_loop_spec :
    ∀ (n : Nat) (rest pre : List Char) (argv : List Nat),
      rest.length ≤ n → NUL ∉ rest → argv.length ≤ 15 →
      (argv.length + (tokens rest).length ≤ 15 →
        ∃ S ptrs, parse_loop pre rest argv = Parsed.args (pre.reverse ++ S) (argv ++ ptrs) ∧
          ptrs.map (cstring (pre.reverse ++ S)) = (tokens rest).map String.mk ∧
          (S.headD NUL = NUL ∨ ∃ c r, rest = c :: r ∧ isSpace c = false)) ∧
      (15 < argv.length + (tokens rest).length → parse_loop pre rest argv = Parsed.overflow) := by
  intro n
  induction n with
  | zero =>
    intro rest pre argv hlen _ hargv
    have hnil : rest = [] := List.length_eq_zero.mp (Nat.le_zero.mp hlen)
    subst hnil
    refine ⟨fun _ => ⟨[], [], by simp [parse_loop_nil], by simp [tokens_nil], Or.inl rfl⟩, ?_⟩
    intro h
    simp [tokens_nil] at h
    omega
  | succ n ih =>
    intro rest pre argv hlen hnul hargv
    cases rest with
    | nil =>
      refine ⟨fun _ => ⟨[], [], by simp [parse_loop_nil], by simp [tokens_nil], Or.inl rfl⟩, ?_⟩
      intro h
      simp [tokens_nil] at h
      omega
    | cons c r =>
      have hc : c ≠ NUL := fun h => hnul (h ▸ List.mem_cons_self _ _)
      have hr : NUL ∉ r := fun h => hnul (List.mem_cons_of_mem _ h)
      have hrlen : r.length ≤ n := Nat.le_of_succ_le_succ hlen
      cases hs : isSpace c with
      | true =>
        rw [parse_loop_cons_space pre c r argv hc hs, tokens_cons_space c r hs]
        obtain ⟨ih1, ih2⟩ := ih r (NUL :: pre) argv hrlen hr hargv
        refine ⟨fun h => ?_, ih2⟩
        obtain ⟨S, ptrs, h1, h2, _⟩ := ih1 h
        refine ⟨NUL :: S, ptrs, ?_, ?_, Or.inl rfl⟩
        · rw [h1]; simp
        · rw [← h2]; simp
      | false =>
        have htl : (r.dropWhile (fun c => !isSpace c)).length ≤ n :=
          Nat.le_trans (List.dropWhile_sublist _).length_le hrlen
        have hnul2 : NUL ∉ r.dropWhile (fun c => !isSpace c) :=
          fun h => hr ((List.dropWhile_sublist _).subset h)
        have hnultok : NUL ∉ c :: r.takeWhile (fun c => !isSpace c) := by
          intro h
          rcases List.mem_cons.mp h with h | h
          · exact hc h.symm
          · exact hr ((List.takeWhile_sublist _).subset h)
        have hskip : skiparg pre (c :: r) =
            ((c :: r.takeWhile (fun c => !isSpace c)).reverse ++ pre,
              r.dropWhile (fun c => !isSpace c)) := by
          rw [skiparg_eq (c :: r) hnul pre]
          simp [hs]
        rw [parse_loop_cons_nonspace pre c r argv hc hs, tokens_cons_nonspace c r hs, hskip]
        simp only [List.length_cons]
        constructor
        · intro h
          have hne : argv.length ≠ 15 := by omega
          rw [if_neg hne]
          obtain ⟨ih1, -⟩ := ih (r.dropWhile (fun c => !isSpace c))
            ((c :: r.takeWhile (fun c => !isSpace c)).reverse ++ pre) (argv ++ [pre.length])
            htl hnul2 (by simp; omega)
          obtain ⟨S, ptrs, h1, h2, h3⟩ := ih1 (by simp; omega)
          have hS : S.headD NUL = NUL := by
            rcases h3 with h3 | ⟨d, r2, hd, hsd⟩
            · exact h3
            · rw [dropWhile_nonspace_head r d r2 hd] at hsd
              exact absurd hsd (by decide)
          have hbuf : ((c :: r.takeWhile (fun c => !isSpace c)).reverse ++ pre).reverse ++ S =
              pre.reverse ++ ((c :: r.takeWhile (fun c => !isSpace c)) ++ S) := by
            simp
          refine ⟨(c :: r.takeWhile (fun c => !isSpace c)) ++ S, pre.length :: ptrs, ?_, ?_,
            Or.inr ⟨c, r, rfl, hs⟩⟩
          · rw [h1, hbuf]; simp
          · rw [hbuf] at h2
            rw [List.map_cons, List.map_cons, h2,
              cstring_at_token pre (c :: r.takeWhile (fun c => !isSpace c)) S hnultok hS]
        · intro h
          by_cases he : argv.length = 15
          · rw [if_pos he]
          · rw [if_neg he]
            obtain ⟨-, ih2⟩ := ih (r.dropWhile (fun c => !isSpace c))
              ((c :: r.takeWhile (fun c => !isSpace c)).reverse ++ pre) (argv ++ [pre.length])
              htl hnul2 (by simp; omega)
            exact ih2 (by simp; omega)

/-- The function `runcmd` in terms of the tokens of the line: a line with `16`
tokens or more takes the `Too many arguments` branch; a line without a token
returns `0` at once; any other line is looked up in the table with its tokens
as argument vector. -/
theorem runcmd_eq (K : Kernel) (fuel : Nat) (line : List Char) (tf : Option Trapframe)
    (hnul : NUL ∉ line) :
    runcmd K fuel line tf =
      if 15 < (tokens line).length then
        some { out := [tooManyArgs], tf := tf, ctl := Ctl.ret 0 }
      else if (tokens line).length = 0 then some { out := [], tf := tf, ctl := Ctl.ret 0 }
      else lookup K fuel ((tokens line).map String.mk) tf commands := by
  obtain ⟨h1, h2⟩ := parse_loop_spec line.length line [] [] (Nat.le_refl _) hnul (by simp)
  by_cases hover : 15 < (tokens line).length
  · rw [if_pos hover, runcmd, h2 (by simpa using hover)]
  · rw [if_neg hover]
    obtain ⟨S, ptrs, hp, hmap, -⟩ := h1 (by simp; omega)
    simp only [List.reverse_nil, List.nil_append] at hp hmap
    have hlen : ptrs.length = (tokens line).length := by
      have := congrArg List.length hmap
      simpa using this
    rw [runcmd, hp]
    simp only [hlen, hmap]

theorem backtrace_loop_no_tooManyArgs (K : Kernel) :
    ∀ (fuel ebp : Nat) (info : Eipdebuginfo) (r : Int × List Event),
      backtrace_loop K fuel ebp info = some r → tooManyArgs ∉ r.2 := by
  intro fuel
  induction fuel with
  | zero =>
    intro ebp info r h
    by_cases h0 : ebp = 0
    · simp [backtrace_loop, h0] at h
      subst h
      simp
    · simp [backtrace_loop, h0] at h
  | succ fuel ih =>
    intro ebp info r h
    have hfr : tooManyArgs ≠ frameLine K.mem ebp := by simp [tooManyArgs, frameLine]
    rw [backtrace_loop] at h
    by_cases h0 : ebp = 0
    · simp [h0] at h
      subst h
      simp
    · rw [if_neg h0] at h
      simp only at h
      by_cases hr : (K.debuginfo_eip (rd K.mem ebp 1) info).1 = -1
      · rw [if_pos hr] at h
        simp at h
        subst h
        simpa using hfr
      · rw [if_neg hr] at h
        cases hb : backtrace_loop K fuel (rd K.mem ebp 0)
            (K.debuginfo_eip (rd K.mem ebp 1) info).2 with
        | none => rw [hb] at h; simp at h
        | some r2 =>
          rw [hb] at h
          simp at h
          subst h
          have hsym : tooManyArgs ≠ symLine (K.debuginfo_eip (rd K.mem ebp 1) info).2
              (rd K.mem ebp 1) := by simp [tooManyArgs, symLine]
          have := ih _ _ _ hb
          simp [hfr, hsym, this]

theorem lookup_commands_no_tooManyArgs (K : Kernel) (fuel : Nat) (argv : List String)
    (tf : Option Trapframe) (r : Result) (h : lookup K fuel argv tf commands = some r) :
    tooManyArgs ∉ r.out := by
  simp only [lookup, commands] at h
  split_ifs at h
  · simp at h; subst h; simp [mon_help, command_names, tooManyArgs]
  · simp at h; subst h; simp [mon_kerninfo, tooManyArgs]
  · unfold mon_backtrace at h
    cases hb : backtrace_loop K fuel (w32 K.read_ebp) Eipdebuginfo.zero with
    | none => rw [hb] at h; simp at h
    | some r2 =>
      rw [hb] at h
      simp at h
      subst h
      have := backtrace_loop_no_tooManyArgs K _ _ _ _ hb
      have hh : tooManyArgs ≠ backtraceHeading := by simp [tooManyArgs, backtraceHeading]
      simp [hh, this]
  · simp at h; subst h
    unfold mon_break_continue
    split
    · simp
    · split <;> simp
  · simp at h; subst h
    unfold mon_break_step
    split
    · simp
    · split <;> simp [tooManyArgs]
  · simp at h; subst h; simp [tooManyArgs]

/-! ## The command interpreter: statements -/

/-- C8, as stated, fails: a line of exactly `16` tokens is within the claimed
bound, yet `runcmd` takes the `Too many arguments` branch on it and looks
nothing up. -/
theorem runcmd_sixteen_tokens_overflow :
    NUL ∉ exampleLine 16 ∧ (tokens (exampleLine 16)).length = 16 ∧
      runcmd (exampleKernel 0) 3 (exampleLine 16) none =
        some { out := [tooManyArgs], tf := none, ctl := Ctl.ret 0 } := by
  refine ⟨by decide, by decide, ?_⟩
  simp [runcmd, parse_loop, gobble, skiparg, strchr, NUL, WHITESPACE, MAXARGS, exampleLine,
    List.replicate]

/-- C8, amended: on a command line (a C string, so without a terminating byte
among its characters) of at most `15` tokens `runcmd` does not take the
`Too many arguments` branch: it returns `0` at once when the line has no
token, otherwise it passes the tokens of the whole line, in order, as argument
vector to the lookup in the command table; and whatever it then prints, the
`Too many arguments` message is not part of it. -/
theorem runcmd_within_bound (K : Kernel) (fuel : Nat) (line : List Char)
    (tf : Option Trapframe) (hnul : NUL ∉ line) (hlen : (tokens line).length ≤ 15) :
    runcmd K fuel line tf =
        (if (tokens line).length = 0 then some { out := [], tf := tf, ctl := Ctl.ret 0 }
         else lookup K fuel ((tokens line).map String.mk) tf commands) ∧
      ∀ r, runcmd K fuel line tf = some r → tooManyArgs ∉ r.out := by
  have heq := runcmd_eq K fuel line tf hnul
  rw [if_neg (by omega)] at heq
  refine ⟨heq, ?_⟩
  intro r hr
  rw [heq] at hr
  by_cases h0 : (tokens line).length = 0
  · rw [if_pos h0] at hr
    simp at hr
    subst hr
    simp
  · rw [if_neg h0] at hr
    exact lookup_commands_no_tooManyArgs K fuel _ tf r hr

/-- Witness of C8 (amended): a line of `15` tokens is looked up. -/
theorem runcmd_within_bound_witness :
    NUL ∉ exampleLine 15 ∧ (tokens (exampleLine 15)).length ≤ 15 ∧
      runcmd (exampleKernel 0) 3 (exampleLine 15) none =
        (if (tokens (exampleLine 15)).length = 0 then
           some { out := [], tf := none, ctl := Ctl.ret 0 }
         else lookup (exampleKernel 0) 3 ((tokens (exampleLine 15)).map String.mk) none commands) :=
  ⟨by decide, by decide,
   (runcmd_within_bound (exampleKernel 0) 3 (exampleLine 15) none (by decide) (by decide)).1⟩

theorem Session.after_after (a b : List Event) (s : Session) :
    Session.after a (Session.after b s) = Session.after (a ++ b) s := by
  simp [Session.after]

theorem Session.after_nil (s : Session) : Session.after [] s = s := by
  simp [Session.after]

theorem monitor_loop_null (K : Kernel) (input : Nat → Option (List Char)) (fuel n : Nat)
    (tf : Option Trapframe) (h : input n = none) :
    monitor_loop K input (fuel + 1) n tf =
      (monitor_loop K input fuel (n + 1) tf).map (Session.after [prompt]) := by
  rw [monitor_loop, h]

theorem monitor_loop_nulls (K : Kernel) (input : Nat → Option (List Char)) (fuel : Nat)
    (tf : Option Trapframe) :
    ∀ (k n : Nat), (∀ i, i < k → input (n + i) = none) →
      monitor_loop K input (k + fuel) n tf =
        (monitor_loop K input fuel (n + k) tf).map (Session.after (List.replicate k prompt)) := by
  intro k
  induction k with
  | zero =>
    intro n _
    rw [Nat.zero_add, Nat.add_zero]
    cases monitor_loop K input fuel n tf with
    | none => rfl
    | some s => simp [Session.after_nil]
  | succ k ih =>
    intro n hnull
    have h0 : input n = none := hnull 0 (Nat.succ_pos _)
    have hshift : ∀ i, i < k → input (n + 1 + i) = none := by
      intro i hi
      have := hnull (i + 1) (Nat.succ_lt_succ hi)
      rwa [Nat.add_assoc, Nat.add_comm 1 i]
    have hfuel : k + 1 + fuel = (k + fuel) + 1 := by omega
    have hn : n + (k + 1) = n + 1 + k := by omega
    rw [hfuel, monitor_loop_null K input _ n tf h0, ih (n + 1) hshift, hn]
    cases monitor_loop K input fuel (n + 1 + k) tf with
    | none => rfl
    | some s => simp [Session.after_after, List.replicate_succ]

/-- C10, as stated, fails. With an input source that yields `NULL` on every
call, `monitor` never returns, whatever the number of loop iterations allowed.
With the source `nullThenSi` (first `NULL`, then the line `si`) and a
page-fault trap frame, `readline` is called a second time after it yielded
`NULL`, the second line is executed, and `Command failed!` is printed. -/
theorem monitor_null_line_does_not_end_loop :
    (¬ ∃ fuel, (monitor (exampleKernel 0) (fun _ => none) fuel none).isSome = true) ∧
      monitor (exampleKernel 0) nullThenSi 2 (some (exampleFrame 14 0x202)) =
        some { out := [Event.cprintf "Welcome to the JOS kernel monitor!\n" [],
                       Event.cprintf "Type \x27help\x27 for a list of commands.\n" [],
                       prompt, prompt, commandFailed],
               tf := some (exampleFrame 14 0x202), exit := Exit.returned } := by
  constructor
  · rintro ⟨fuel, h⟩
    have hn := monitor_loop_nulls (exampleKernel 0) (fun _ => none) 0 none fuel 0
      (fun _ _ => rfl)
    rw [Nat.add_zero] at hn
    simp [monitor, hn, monitor_loop] at h
  · have hsi : runcmd (exampleKernel 0) 0 ['s', 'i'] (some (exampleFrame 14 0x202)) =
        some { out := [], tf := some (exampleFrame 14 0x202), ctl := Ctl.ret (-1) } := by
      rw [runcmd_eq _ _ _ _ (by decide)]
      have ht : tokens ['s', 'i'] = [['s', 'i']] := by decide
      simp [ht, lookup, commands, mon_break_step, exampleKernel, exampleFrame]
    have h1 : monitor_loop (exampleKernel 0) nullThenSi 1 1 (some (exampleFrame 14 0x202)) =
        some { out := [prompt, commandFailed], tf := some (exampleFrame 14 0x202),
               exit := Exit.returned } := by
      rw [monitor_loop]
      simp [nullThenSi, hsi]
    rw [monitor, monitor_loop_null _ _ _ _ _ (by rfl), h1]
    simp [Session.after, exampleKernel]

/-- C10, amended: a `NULL` from `readline` does not end the loop of `monitor`.
When the calls `n`, ..., `n+k-1` of `readline` yield `NULL`, the loop entered
at call `n` prints nothing but the `k` prompts of those calls (in particular no
`Command failed!`), runs no command, and goes on as the loop entered at call
`n+k` with the same trap frame; after those `k` iterations it has not been
left. -/
theorem monitor_loop_null_lines (K : Kernel) (input : Nat → Option (List Char))
    (k n fuel : Nat) (tf : Option Trapframe)
    (hnull : ∀ i, i < k → input (n + i) = none) :
    monitor_loop K input (k + fuel) n tf =
        (monitor_loop K input fuel (n + k) tf).map (Session.after (List.replicate k prompt)) ∧
      monitor_loop K input k n tf = none := by
  refine ⟨monitor_loop_nulls K input fuel tf k n hnull, ?_⟩
  have h := monitor_loop_nulls K input 0 tf k n hnull
  rw [Nat.add_zero] at h
  rw [h]
  simp [monitor_loop]

/-- Witness of C10 (amended): the source `nullThenSi` yields `NULL` on its
first call. -/
theorem monitor_loop_null_lines_witness :
    (∀ i, i < 1 → nullThenSi (0 + i) = none) ∧
      monitor_loop (exampleKernel 0) nullThenSi (1 + 1) 0 (some (exampleFrame 14 0x202)) =
        (monitor_loop (exampleKernel 0) nullThenSi 1 (0 + 1) (some (exampleFrame 14 0x202))).map
          (Session.after (List.replicate 1 prompt)) ∧
      monitor_loop (exampleKernel 0) nullThenSi 1 0 (some (exampleFrame 14 0x202)) = none := by
  have hnull : ∀ i, i < 1 → nullThenSi (0 + i) = none := by
    intro i hi
    have : i = 0 := by omega
    subst this
    rfl
  exact ⟨hnull, monitor_loop_null_lines (exampleKernel 0) nullThenSi 1 0 1
    (some (exampleFrame 14 0x202)) hnull⟩

/-! ## Further statements on the backtrace walk -/

/-- C14: when the initial frame pointer is the sentinel `0`, `mon_backtrace`
returns `0` and its whole trace is the heading `Stack backtrace:`: no frame
line and no symbol line; the result is the same for any other contents of
memory and any other resolver, so neither is consulted. -/
theorem mon_backtrace_sentinel_first (K : Kernel) (fuel argc : Nat) (argv : List String)
    (tf : Option Trapframe) (h0 : w32 K.read_ebp = 0) :
    mon_backtrace K fuel argc argv tf =
        some { out := [backtraceHeading], tf := tf, ctl := Ctl.ret 0 } ∧
      ∀ (mem2 : Mem) (dbg2 : Nat → Eipdebuginfo → Int × Eipdebuginfo),
        mon_backtrace { K with mem := mem2, debuginfo_eip := dbg2 } fuel argc argv tf =
          mon_backtrace K fuel argc argv tf := by
  have key : ∀ K2 : Kernel, w32 K2.read_ebp = 0 →
      mon_backtrace K2 fuel argc argv tf =
        some { out := [backtraceHeading], tf := tf, ctl := Ctl.ret 0 } := by
    intro K2 h
    unfold mon_backtrace
    rw [h, backtrace_loop_zero]
  refine ⟨key K h0, fun mem2 dbg2 => ?_⟩
  rw [key K h0]
  exact key _ h0

/-- Witness of C14: the example kernel with the frame-pointer register at `0`,
and no fuel at all. -/
theorem mon_backtrace_sentinel_first_witness :
    w32 ({ exampleKernel 0 with read_ebp := 0 } : Kernel).read_ebp = 0 ∧
      mon_backtrace { exampleKernel 0 with read_ebp := 0 } 0 1 ["backtrace"] none =
        some { out := [backtraceHeading], tf := none, ctl := Ctl.ret 0 } :=
  ⟨rfl, (mon_backtrace_sentinel_first { exampleKernel 0 with read_ebp := 0 } 0 1 ["backtrace"]
    none rfl).1⟩

theorem sub32_eq_int (a b : Nat) (ha : a < 2 ^ 32) :
    ((sub32 a b : Nat) : Int) = ((a : Int) - ((b % 2 ^ 32 : Nat) : Int)) % 2 ^ 32 := by
  have hb : b % 2 ^ 32 < 2 ^ 32 := Nat.mod_lt _ (by norm_num)
  unfold sub32 w32
  rw [Nat.mod_eq_of_lt ha]
  generalize b % 2 ^ 32 = c at hb
  norm_num at ha hb ⊢
  omega

theorem backtrace_loop_symLines (K : Kernel) :
    ∀ (fuel ebp : Nat) (info : Eipdebuginfo) (r : Int × List Event),
      backtrace_loop K fuel ebp info = some r →
      ∀ ev ∈ r.2, isSymLine ev = true →
        ∃ (pre post : List Event) (e : Nat) (info0 : Eipdebuginfo),
          r.2 = pre ++ frameLine K.mem e :: ev :: post ∧
          (K.debuginfo_eip (rd K.mem e 1) info0).1 ≠ -1 ∧
          ev = symLine (K.debuginfo_eip (rd K.mem e 1) info0).2 (rd K.mem e 1) := by
  intro fuel
  induction fuel with
  | zero =>
    intro ebp info r h ev hev _
    by_cases h0 : ebp = 0
    · simp [backtrace_loop, h0] at h
      subst h
      simp at hev
    · simp [backtrace_loop, h0] at h
  | succ fuel ih =>
    intro ebp info r h ev hev hsym
    have hfr : isSymLine (frameLine K.mem ebp) = false := by simp [frameLine, isSymLine]
    rw [backtrace_loop] at h
    by_cases h0 : ebp = 0
    · simp [h0] at h
      subst h
      simp at hev
    · rw [if_neg h0] at h
      simp only at h
      by_cases hr : (K.debuginfo_eip (rd K.mem ebp 1) info).1 = -1
      · rw [if_pos hr] at h
        simp at h
        subst h
        simp only [List.mem_singleton] at hev
        subst hev
        rw [hfr] at hsym
        exact absurd hsym (by decide)
      · rw [if_neg hr] at h
        cases hb : backtrace_loop K fuel (rd K.mem ebp 0)
            (K.debuginfo_eip (rd K.mem ebp 1) info).2 with
        | none => rw [hb] at h; simp at h
        | some r2 =>
          rw [hb] at h
          simp only [Option.some.injEq] at h
          subst h
          simp only [List.mem_cons] at hev
          rcases hev with hev | hev | hev
          · subst hev
            rw [hfr] at hsym
            exact absurd hsym (by decide)
          · subst hev
            exact ⟨[], r2.2, ebp, info, rfl, hr, rfl⟩
          · obtain ⟨pre, post, e, info0, hout, hst, hev2⟩ := ih _ _ r2 hb ev hev hsym
            refine ⟨frameLine K.mem ebp ::
              symLine (K.debuginfo_eip (rd K.mem ebp 1) info).2 (rd K.mem ebp 1) :: pre,
              post, e, info0, ?_, hst, hev2⟩
            simp [hout]

/-- C15: every symbol line in the trace of `mon_backtrace` stands right after
the frame line of a frame `e` whose return address `ebp[1]` the resolver
accepted, and the offset it prints (the last argument of the `cprintf`) is the
return address of that frame minus the function start address the resolver
gave for that same return address, as a 32-bit word: the difference modulo
`2^32`. -/
theorem mon_backtrace_symbol_offset (K : Kernel) (fuel argc : Nat) (argv : List String)
    (tf : Option Trapframe) (r : Result) (ev : Event)
    (hrun : mon_backtrace K fuel argc argv tf = some r) (hev : ev ∈ r.out)
    (hsym : isSymLine ev = true) :
    ∃ (pre post : List Event) (e : Nat) (info0 : Eipdebuginfo) (off : Nat),
      r.out = pre ++ frameLine K.mem e :: ev :: post ∧
      (K.debuginfo_eip (rd K.mem e 1) info0).1 ≠ -1 ∧
      ev = Event.cprintf "       %s:%d: %.*s+%d\n"
        [Arg.ofPtr (K.debuginfo_eip (rd K.mem e 1) info0).2.eip_file,
         Arg.int (K.debuginfo_eip (rd K.mem e 1) info0).2.eip_line,
         Arg.int (K.debuginfo_eip (rd K.mem e 1) info0).2.eip_fn_namelen,
         Arg.ofPtr (K.debuginfo_eip (rd K.mem e 1) info0).2.eip_fn_name,
         Arg.word off] ∧
      off < 2 ^ 32 ∧
      (off : Int) =
        ((rd K.mem e 1 : Int) -
          (((K.debuginfo_eip (rd K.mem e 1) info0).2.eip_fn_addr % 2 ^ 32 : Nat) : Int)) %
            2 ^ 32 := by
  unfold mon_backtrace at hrun
  cases hb : backtrace_loop K fuel (w32 K.read_ebp) Eipdebuginfo.zero with
  | none => rw [hb] at hrun; simp at hrun
  | some r2 =>
    rw [hb] at hrun
    simp only [Option.some.injEq] at hrun
    subst hrun
    simp only [List.mem_cons] at hev
    rcases hev with hev | hev
    · subst hev
      simp [backtraceHeading, isSymLine] at hsym
    · obtain ⟨pre, post, e, info0, hout, hst, hev2⟩ :=
        backtrace_loop_symLines K _ _ _ r2 hb ev hev hsym
      refine ⟨backtraceHeading :: pre, post, e, info0,
        sub32 (rd K.mem e 1) (K.debuginfo_eip (rd K.mem e 1) info0).2.eip_fn_addr,
        by simp [hout], hst, by rw [hev2, symLine], Nat.mod_lt _ (by norm_num), ?_⟩
      exact sub32_eq_int _ _ (Nat.mod_lt _ (by norm_num))

/-- Witness of C15: the symbol line of the first frame of the example stack:
return address `0x101`, function start `0x100`, offset `1`. -/
theorem mon_backtrace_symbol_offset_witness :
    ∃ (pre post : List Event) (e : Nat) (info0 : Eipdebuginfo) (off : Nat),
      (backtraceHeading ::
          emitFrames (exampleKernel (2 ^ 32)) Eipdebuginfo.zero [0x1000, 0x2000, 0x3000]) =
        pre ++ frameLine (exampleKernel (2 ^ 32)).mem e ::
          symLine ((exampleKernel (2 ^ 32)).debuginfo_eip 0x101 Eipdebuginfo.zero).2 0x101 ::
            post ∧
      ((exampleKernel (2 ^ 32)).debuginfo_eip
          (rd (exampleKernel (2 ^ 32)).mem e 1) info0).1 ≠ -1 ∧
      symLine ((exampleKernel (2 ^ 32)).debuginfo_eip 0x101 Eipdebuginfo.zero).2 0x101 =
        Event.cprintf "       %s:%d: %.*s+%d\n"
          [Arg.ofPtr ((exampleKernel (2 ^ 32)).debuginfo_eip
              (rd (exampleKernel (2 ^ 32)).mem e 1) info0).2.eip_file,
           Arg.int ((exampleKernel (2 ^ 32)).debuginfo_eip
              (rd (exampleKernel (2 ^ 32)).mem e 1) info0).2.eip_line,
           Arg.int ((exampleKernel (2 ^ 32)).debuginfo_eip
              (rd (exampleKernel (2 ^ 32)).mem e 1) info0).2.eip_fn_namelen,
           Arg.ofPtr ((exampleKernel (2 ^ 32)).debuginfo_eip
              (rd (exampleKernel (2 ^ 32)).mem e 1) info0).2.eip_fn_name,
           Arg.word off] ∧
      off < 2 ^ 32 ∧
      (off : Int) =
        ((rd (exampleKernel (2 ^ 32)).mem e 1 : Int) -
          ((((exampleKernel (2 ^ 32)).debuginfo_eip
              (rd (exampleKernel (2 ^ 32)).mem e 1) info0).2.eip_fn_addr % 2 ^ 32 : Nat) : Int)) %
            2 ^ 32 := by
  have hrun : mon_backtrace (exampleKernel (2 ^ 32)) 3 1 ["backtrace"] none =
      some { out := backtraceHeading ::
               emitFrames (exampleKernel (2 ^ 32)) Eipdebuginfo.zero [0x1000, 0x2000, 0x3000],
             tf := none, ctl := Ctl.ret 0 } := by
    simp [mon_backtrace, backtrace_loop, emitFrames, exampleKernel, rd, w32]
  exact mon_backtrace_symbol_offset (exampleKernel (2 ^ 32)) 3 1 ["backtrace"] none _
    (symLine ((exampleKernel (2 ^ 32)).debuginfo_eip 0x101 Eipdebuginfo.zero).2 0x101) hrun
    (by simp [emitFrames, exampleKernel, rd, w32]) (by simp [symLine, isSymLine])

theorem emitFrames_alternating (K : Kernel) (chain : List Nat) :
    ∀ info, ∃ syms : List Event,
      syms.length = chain.length ∧ (∀ s ∈ syms, isSymLine s = true) ∧
      emitFrames K info chain =
        (List.zipWith (fun e s => [frameLine K.mem e, s]) chain syms).flatten := by
  induction chain with
  | nil => intro info; exact ⟨[], rfl, by simp, rfl⟩
  | cons e es ih =>
    intro info
    obtain ⟨syms, hlen, hall, heq⟩ := ih (K.debuginfo_eip (rd K.mem e 1) info).2
    refine ⟨symLine (K.debuginfo_eip (rd K.mem e 1) info).2 (rd K.mem e 1) :: syms, ?_, ?_, ?_⟩
    · simp [hlen]
    · intro s hs
      rcases List.mem_cons.mp hs with h | h
      · subst h
        simp [symLine, isSymLine]
      · exact hall s h
    · simp [emitFrames, heq]

/-- C18: when the return address of the `k`-th frame `ek` is the first one the
resolver rejects (`pre` lists the `k-1` frames before it), the trace of
`mon_backtrace` is the heading `Stack backtrace:`, then for each of the first
`k-1` frames its raw frame line followed by one symbol line, and last the raw
frame line of the `k`-th frame: `k` frame lines and `k-1` symbol lines in
strict alternation. The raw frame line of a frame `e` is the `cprintf` of the
frame pointer `e`, the return address `e[1]` and the five argument words
`e[2]` .. `e[6]`. The frame line of the `k`-th frame is printed although its
lookup fails, so it is printed before the lookup decides. -/
theorem mon_backtrace_frame_line_first (K : Kernel) (pre : List Nat) (ek fuel argc : Nat)
    (argv : List String) (tf : Option Trapframe)
    (hchain : ChainFrom K.mem (w32 K.read_ebp) pre ek) (hek : ek ≠ 0)
    (hres : ∀ e ∈ pre, Resolvable K (rd K.mem e 1))
    (hbad : Unresolvable K (rd K.mem ek 1))
    (hfuel : pre.length < fuel) :
    ∃ (out syms : List Event) (raw : Nat → Event),
      (∀ e, raw e =
        Event.cprintf "  ebp %08x  eip %08x  args %08x %08x %08x %08x %08x\n"
          [Arg.word e, Arg.word (rd K.mem e 1), Arg.word (rd K.mem e 2),
           Arg.word (rd K.mem e 3), Arg.word (rd K.mem e 4), Arg.word (rd K.mem e 5),
           Arg.word (rd K.mem e 6)]) ∧
      mon_backtrace K fuel argc argv tf = some { out := out, tf := tf, ctl := Ctl.ret (-1) } ∧
      syms.length = pre.length ∧
      (∀ s ∈ syms, ∃ args, s = Event.cprintf "       %s:%d: %.*s+%d\n" args) ∧
      out = Event.cprintf "Stack backtrace:\n" [] ::
        ((List.zipWith (fun e s => [raw e, s]) pre syms).flatten ++ [raw ek]) ∧
      (out.filterMap frameEbp).length = pre.length + 1 ∧
      (out.filter isSymLine).length = pre.length ∧
      out.getLast? = some (raw ek) := by
  obtain ⟨syms, hlen, hall, heq⟩ := emitFrames_alternating K pre Eipdebuginfo.zero
  obtain ⟨d, hd⟩ := Nat.exists_eq_add_of_lt hfuel
  have hd2 : fuel = pre.length + (d + 1) := by omega
  have hrun : mon_backtrace K fuel argc argv tf =
      some { out := backtraceHeading ::
               (emitFrames K Eipdebuginfo.zero pre ++ [frameLine K.mem ek]),
             tf := tf, ctl := Ctl.ret (-1) } := by
    subst hd2
    unfold mon_backtrace
    rw [backtrace_loop_chain K pre (d + 1) _ ek _ hchain hres, backtrace_loop, if_neg hek]
    simp [hbad _]
  have hfr : isSymLine (frameLine K.mem ek) = false := by simp [frameLine, isSymLine]
  have hhd : isSymLine backtraceHeading = false := by simp [backtraceHeading, isSymLine]
  have hhd2 : frameEbp backtraceHeading = none := by simp [backtraceHeading, frameEbp]
  have hfr2 : frameEbp (frameLine K.mem ek) = some ek := by simp [frameLine, frameEbp]
  refine ⟨_, syms, frameLine K.mem, fun e => rfl, hrun, hlen, ?_, ?_, ?_, ?_, ?_⟩
  · intro s hs
    have h := hall s hs
    cases s with
    | readline p => simp [isSymLine] at h
    | cprintf fmt args =>
      simp only [isSymLine, decide_eq_true_eq] at h
      exact ⟨args, by rw [h]⟩
  · rw [heq]
    rfl
  · rw [List.filterMap_cons_none hhd2, List.filterMap_append, emitFrames_frameEbp,
      List.filterMap_cons_some hfr2, List.filterMap_nil]
    simp
  · simp [List.filter_cons, hhd, hfr, emitFrames_symLines]
  · rw [← List.cons_append, List.getLast?_append]
    simp

/-- Witness of C18: on the example stack with the second return address
rejected, the trace is heading, frame line, symbol line, frame line. -/
theorem mon_backtrace_frame_line_first_witness :
    ChainFrom (exampleKernel 0x102).mem (w32 (exampleKernel 0x102).read_ebp) [0x1000] 0x2000 ∧
      (∀ e ∈ [0x1000], Resolvable (exampleKernel 0x102) (rd (exampleKernel 0x102).mem e 1)) ∧
      Unresolvable (exampleKernel 0x102) (rd (exampleKernel 0x102).mem 0x2000 1) ∧
      ∃ (out syms : List Event) (raw : Nat → Event),
        (∀ e, raw e =
          Event.cprintf "  ebp %08x  eip %08x  args %08x %08x %08x %08x %08x\n"
            [Arg.word e, Arg.word (rd (exampleKernel 0x102).mem e 1),
             Arg.word (rd (exampleKernel 0x102).mem e 2),
             Arg.word (rd (exampleKernel 0x102).mem e 3),
             Arg.word (rd (exampleKernel 0x102).mem e 4),
             Arg.word (rd (exampleKernel 0x102).mem e 5),
             Arg.word (rd (exampleKernel 0x102).mem e 6)]) ∧
        mon_backtrace (exampleKernel 0x102) 2 1 ["backtrace"] none =
          some { out := out, tf := none, ctl := Ctl.ret (-1) } ∧
        syms.length = [0x1000].length ∧
        (∀ s ∈ syms, ∃ args, s = Event.cprintf "       %s:%d: %.*s+%d\n" args) ∧
        out = Event.cprintf "Stack backtrace:\n" [] ::
          ((List.zipWith (fun e s => [raw e, s]) [0x1000] syms).flatten ++ [raw 0x2000]) ∧
        (out.filterMap frameEbp).length = [0x1000].length + 1 ∧
        (out.filter isSymLine).length = [0x1000].length ∧
        out.getLast? = some (raw 0x2000) := by
  have hc : ChainFrom (exampleKernel 0x102).mem (w32 (exampleKernel 0x102).read_ebp)
      [0x1000] 0x2000 := by
    simp [ChainFrom, exampleKernel, rd, w32]
  have hr : ∀ e ∈ [0x1000],
      Resolvable (exampleKernel 0x102) (rd (exampleKernel 0x102).mem e 1) := by
    intro e he info
    simp only [List.mem_singleton] at he
    subst he
    simp [exampleKernel, rd, w32]
  have hb : Unresolvable (exampleKernel 0x102) (rd (exampleKernel 0x102).mem 0x2000 1) := by
    intro info
    simp [exampleKernel, rd, w32]
  exact ⟨hc, hr, hb, mon_backtrace_frame_line_first (exampleKernel 0x102) [0x1000] 0x2000 2 1
    ["backtrace"] none hc (by decide) hr hb (by decide)⟩

/-! ## Further statements on the resume commands -/

/-- C17: for a trap frame whose trap number is the breakpoint or the debug
trap, `mon_break_continue` ends in `iret` with a flags word whose bit 8, the
single-step bit `0x100`, is clear, whatever the captured flags are. -/
theorem mon_break_continue_single_step_clear (K : Kernel) (argc : Nat) (argv : List String)
    (t : Trapframe) (htrap : t.tf_trapno = K.T_BRKPT ∨ t.tf_trapno = K.T_DEBUG) :
    ∃ cpu : Resumed,
      (mon_break_continue K argc argv (some t)).ctl = Ctl.iret cpu ∧
      Nat.testBit cpu.eflags 8 = false ∧ cpu.eflags &&& 0x100 = 0 := by
  have hguard : ¬ (t.tf_trapno ≠ K.T_BRKPT ∧ t.tf_trapno ≠ K.T_DEBUG) := by
    rintro ⟨h1, h2⟩
    exact htrap.elim h1 h2
  have hbit : Nat.testBit (t.tf_eflags &&& 0x11111011) 8 = false := by
    rw [Nat.testBit_and]
    have : Nat.testBit 0x11111011 8 = false := by decide
    rw [this, Bool.and_false]
  refine ⟨resume { t with tf_eflags := t.tf_eflags &&& 0x11111011 }, ?_, hbit, ?_⟩
  · simp [mon_break_continue, hguard]
  · show (t.tf_eflags &&& 0x11111011) &&& 0x100 = 0
    rw [Nat.land_assoc]
    have : (0x11111011 : Nat) &&& 0x100 = 0 := by decide
    rw [this]
    simp

/-- Witness of C17: a breakpoint trap frame captured with the single-step bit
set (flags `0x302`). -/
theorem mon_break_continue_single_step_clear_witness :
    (exampleFrame 3 0x302).tf_trapno = (exampleKernel 0).T_BRKPT ∧
      ∃ cpu : Resumed,
        (mon_break_continue (exampleKernel 0) 1 ["continue"] (some (exampleFrame 3 0x302))).ctl =
          Ctl.iret cpu ∧
        Nat.testBit cpu.eflags 8 = false ∧ cpu.eflags &&& 0x100 = 0 :=
  ⟨rfl, mon_break_continue_single_step_clear (exampleKernel 0) 1 ["continue"]
    (exampleFrame 3 0x302) (Or.inl rfl)⟩

/-! ## Further statements on the command interpreter -/

theorem tokens_all_space (line : List Char) (hws : ∀ c ∈ line, isSpace c = true) :
    tokens line = [] := by
  induction line with
  | nil => exact tokens_nil
  | cons c r ih =>
    rw [tokens_cons_space c r (hws c (List.mem_cons_self _ _))]
    exact ih (fun d hd => hws d (List.mem_cons_of_mem _ hd))

/-- C13: on a line made of whitespace characters only (tab, carriage return,
newline, space), the empty line included, `runcmd` returns `0` with an empty
trace and the trap frame untouched: no handler has run and nothing is
printed. -/
theorem runcmd_blank_line (K : Kernel) (fuel : Nat) (line : List Char) (tf : Option Trapframe)
    (hws : ∀ c ∈ line, isSpace c = true) :
    runcmd K fuel line tf = some { out := [], tf := tf, ctl := Ctl.ret 0 } := by
  have hnul : NUL ∉ line := by
    intro h
    have := hws NUL h
    exact absurd this (by decide)
  rw [runcmd_eq K fuel line tf hnul, tokens_all_space line hws]
  simp

/-- Witness of C13: the line made of a tab, a space, a carriage return and a
newline. -/
theorem runcmd_blank_line_witness :
    (∀ c ∈ ['\t', ' ', '\r', '\n'], isSpace c = true) ∧
      runcmd (exampleKernel 0) 3 ['\t', ' ', '\r', '\n'] (some (exampleFrame 3 0x202)) =
        some { out := [], tf := some (exampleFrame 3 0x202), ctl := Ctl.ret 0 } :=
  ⟨by decide, runcmd_blank_line (exampleKernel 0) 3 ['\t', ' ', '\r', '\n']
    (some (exampleFrame 3 0x202)) (by decide)⟩

theorem lookup_filter_name (K : Kernel) (fuel : Nat) (argv : List String)
    (tf : Option Trapframe) (nm : String) (hne : argv.headD "" ≠ nm) :
    ∀ l : List Command,
      lookup K fuel argv tf (l.filter (fun d => decide (d.name ≠ nm))) =
        lookup K fuel argv tf l := by
  intro l
  induction l with
  | nil => rfl
  | cons c cs ih =>
    by_cases hc : c.name = nm
    · have hno : argv.headD "" ≠ c.name := fun h => hne (h.trans hc)
      rw [List.filter_cons_of_neg (by simpa using hc), ih, lookup, if_neg hno]
    · rw [List.filter_cons_of_pos (by simpa using hc), lookup, lookup, ih]

theorem runcmd_eq_lookup (K : Kernel) (fuel : Nat) (line : List Char) (tf : Option Trapframe)
    (hnul : NUL ∉ line) (hlen : (tokens line).length ≤ 15) (tok : List Char)
    (rest : List (List Char)) (htok : tokens line = tok :: rest) :
    runcmd K fuel line tf = lookup K fuel ((tokens line).map String.mk) tf commands ∧
      ((tokens line).map String.mk).headD "" = String.mk tok := by
  have heq := runcmd_eq K fuel line tf hnul
  rw [if_neg (by omega), if_neg (by rw [htok]; simp)] at heq
  exact ⟨heq, by rw [htok]; rfl⟩

theorem lookup_commands (K : Kernel) (fuel : Nat) (argv : List String) (tf : Option Trapframe) :
    lookup K fuel argv tf commands =
      if argv.headD "" = "help" then some (mon_help K argv.length argv tf)
      else if argv.headD "" = "kerninfo" then some (mon_kerninfo K argv.length argv tf)
      else if argv.headD "" = "backtrace" then mon_backtrace K fuel argv.length argv tf
      else if argv.headD "" = "continue" then some (mon_break_continue K argv.length argv tf)
      else if argv.headD "" = "si" then some (mon_break_step K argv.length argv tf)
      else some { out := [unknownCommand (argv.headD "")], tf := tf, ctl := Ctl.ret 0 } := by
  rfl

/-- C12, as stated, fails on a long line: the first token of the `16`-token
example line is `backtrace`, the name of a table entry, yet `runcmd` does not
run `mon_backtrace`: it prints `Too many arguments` and returns `0`. -/
theorem runcmd_known_command_not_dispatched :
    NUL ∉ exampleLine 16 ∧
      (tokens (exampleLine 16)).head? = some "backtrace".toList ∧
      runcmd (exampleKernel 0) 3 (exampleLine 16) none =
        some { out := [tooManyArgs], tf := none, ctl := Ctl.ret 0 } ∧
      runcmd (exampleKernel 0) 3 (exampleLine 16) none ≠
        mon_backtrace (exampleKernel 0) 3 16 ((tokens (exampleLine 16)).map String.mk) none := by
  have hrun : runcmd (exampleKernel 0) 3 (exampleLine 16) none =
      some { out := [tooManyArgs], tf := none, ctl := Ctl.ret 0 } := by
    rw [runcmd_eq _ _ _ _ (by decide), if_pos (by decide)]
  refine ⟨by decide, by decide, hrun, ?_⟩
  rw [hrun]
  simp [mon_backtrace, backtrace_loop, exampleKernel, rd, w32]

/-- C12, amended: on a line of at most `15` tokens with first token `tok`,
`runcmd` runs the handler of a table entry exactly when `tok` equals the name
of that entry, character for character. The names of the table are `help`,
`kerninfo`, `backtrace`, `continue`, `si`; when `tok` equals the name of an
entry the result of `runcmd` is the result of that entry's handler on the
tokens of the line; an entry whose name differs from `tok` plays no part (the
result is the same with that entry removed from the table); and when `tok`
equals none of the five names the result is status `0` with the
`Unknown command` message naming `tok` as whole trace. -/
theorem runcmd_dispatch_exact (K : Kernel) (fuel : Nat) (line : List Char)
    (tf : Option Trapframe) (tok : List Char) (rest : List (List Char))
    (hnul : NUL ∉ line) (hlen : (tokens line).length ≤ 15) (htok : tokens line = tok :: rest) :
    commands.map (fun c => c.name) = ["help", "kerninfo", "backtrace", "continue", "si"] ∧
      (∀ c ∈ commands, String.mk tok = c.name →
        runcmd K fuel line tf =
          c.func K fuel (tokens line).length ((tokens line).map String.mk) tf) ∧
      (∀ c ∈ commands, String.mk tok ≠ c.name →
        runcmd K fuel line tf =
          lookup K fuel ((tokens line).map String.mk) tf
            (commands.filter (fun d => decide (d.name ≠ c.name)))) ∧
      (String.mk tok ∉ ["help", "kerninfo", "backtrace", "continue", "si"] →
        runcmd K fuel line tf =
          some { out := [unknownCommand (String.mk tok)], tf := tf, ctl := Ctl.ret 0 }) := by
  obtain ⟨heq, hhead⟩ := runcmd_eq_lookup K fuel line tf hnul hlen tok rest htok
  refine ⟨rfl, ?_, ?_, ?_⟩
  · intro c hc hname
    rw [heq]
    simp only [commands, List.mem_cons, List.mem_singleton, List.not_mem_nil, or_false] at hc
    have hlen2 : ((tokens line).map String.mk).length = (tokens line).length := by simp
    rw [lookup_commands, hhead, hlen2]
    rcases hc with rfl | rfl | rfl | rfl | rfl <;>
      simp only at hname <;>
      rw [hname] <;>
      simp
  · intro c _ hname
    rw [heq, lookup_filter_name K fuel _ tf c.name (by rw [hhead]; exact hname)]
  · intro hnot
    rw [heq]
    simp only [List.mem_cons, List.mem_singleton, List.not_mem_nil, or_false, not_or] at hnot
    obtain ⟨h1, h2, h3, h4, h5⟩ := hnot
    rw [lookup_commands, hhead, if_neg h1, if_neg h2, if_neg h3, if_neg h4, if_neg h5]

/-- Witness of C12 (amended): the line `Help` differs from `help` in case and
is an unknown command. -/
theorem runcmd_dispatch_exact_witness :
    NUL ∉ "Help".toList ∧ tokens "Help".toList = ["Help".toList] ∧
      runcmd (exampleKernel 0) 3 "Help".toList none =
        some { out := [unknownCommand "Help"], tf := none, ctl := Ctl.ret 0 } :=
  ⟨by decide, by decide,
   (runcmd_dispatch_exact (exampleKernel 0) 3 "Help".toList none "Help".toList []
      (by decide) (by decide) (by decide)).2.2.2 (by decide)⟩

theorem splitOnP_no_space (line : List Char) :
    ∀ t ∈ line.splitOnP isSpace, ∀ c ∈ t, isSpace c = false := by
  induction line with
  | nil => simp
  | cons d r ih =>
    rw [List.splitOnP_cons]
    cases hd : isSpace d with
    | true =>
      simp only [if_true]
      intro t ht
      rcases List.mem_cons.mp ht with h | h
      · subst h; simp
      · exact ih t h
    | false =>
      simp only [Bool.false_eq_true, if_false]
      cases hs : r.splitOnP isSpace with
      | nil => simp
      | cons h tl =>
        rw [hs] at ih
        intro t ht
        simp only [List.modifyHead_cons, List.mem_cons] at ht
        rcases ht with h1 | h1
        · subst h1
          intro c hc
          rcases List.mem_cons.mp hc with h2 | h2
          · subst h2; exact hd
          · exact ih h (List.mem_cons_self _ _) c h2
        · exact ih t (List.mem_cons_of_mem _ h1)

theorem splitOnP_flatten (line : List Char) :
    (line.splitOnP isSpace).flatten = line.filter (fun c => !isSpace c) := by
  induction line with
  | nil => simp
  | cons d r ih =>
    rw [List.splitOnP_cons]
    cases hd : isSpace d with
    | true => simp [hd, ih]
    | false =>
      simp only [Bool.false_eq_true, if_false]
      cases hs : r.splitOnP isSpace with
      | nil => exact absurd hs (List.splitOnP_ne_nil _ _)
      | cons h tl =>
        rw [hs] at ih
        simp [hd, ← ih]

theorem flatten_filter_nonempty (X : List (List Char)) :
    (X.filter (fun t => !t.isEmpty)).flatten = X.flatten := by
  induction X with
  | nil => rfl
  | cons t X ih =>
    cases t with
    | nil => simpa using ih
    | cons c t => simp [ih]

theorem tokens_maximalRuns :
    ∀ (n : Nat) (line : List Char), line.length ≤ n → MaximalRuns line (tokens line) := by
  intro n
  induction n with
  | zero =>
    intro line hlen
    have hnil : line = [] := List.length_eq_zero.mp (Nat.le_zero.mp hlen)
    subst hnil
    rw [tokens_nil]
    exact MaximalRuns.done
  | succ n ih =>
    intro line hlen
    cases line with
    | nil => rw [tokens_nil]; exact MaximalRuns.done
    | cons c r =>
      have hrlen : r.length ≤ n := Nat.le_of_succ_le_succ hlen
      cases hs : isSpace c with
      | true =>
        rw [tokens_cons_space c r hs]
        exact MaximalRuns.space c r _ hs (ih r hrlen)
      | false =>
        rw [tokens_cons_nonspace c r hs]
        have hsplit : c :: r = (c :: r.takeWhile (fun c => !isSpace c)) ++
            r.dropWhile (fun c => !isSpace c) := by
          simp
        rw [hsplit]
        refine MaximalRuns.run _ _ _ (by simp) ?_ ?_
          (ih _ (Nat.le_trans (List.dropWhile_sublist _).length_le hrlen))
        · intro d hd
          rcases List.mem_cons.mp hd with h | h
          · subst h; exact hs
          · simpa using List.mem_takeWhile_imp h
        · intro d hd
          cases hdw : r.dropWhile (fun c => !isSpace c) with
          | nil => rw [hdw] at hd; simp at hd
          | cons x xs =>
            rw [hdw] at hd
            simp only [List.head?_cons, Option.some.injEq] at hd
            subst hd
            exact dropWhile_nonspace_head r x xs hdw

/-- C19: on a command line (a C string) of at most `15` tokens the tokenising
loop of `runcmd` is left by `break` with an argument vector that is the list of
the maximal runs of non-whitespace characters of the line, in left-to-right
order: read as C strings in the rewritten buffer, the pointers stored in `argv`
give exactly these runs; `argc` is their number; no token is empty; no token
contains a whitespace character; and the tokens concatenated are the line with
all whitespace removed. -/
theorem parse_loop_argv (line : List Char) (hnul : NUL ∉ line)
    (hlen : (tokens line).length ≤ 15) :
    ∃ (buf : List Char) (argv : List Nat),
      parse_loop [] line [] = Parsed.args buf argv ∧
      argv.map (cstring buf) = (tokens line).map String.mk ∧
      MaximalRuns line (tokens line) ∧
      argv.length = (tokens line).length ∧
      (∀ t ∈ tokens line, t ≠ [] ∧ ∀ c ∈ t, isSpace c = false) ∧
      (tokens line).flatten = line.filter (fun c => !isSpace c) := by
  obtain ⟨h1, -⟩ := parse_loop_spec line.length line [] [] (Nat.le_refl _) hnul (by simp)
  obtain ⟨S, ptrs, hp, hmap, -⟩ := h1 (by simp; omega)
  simp only [List.reverse_nil, List.nil_append] at hp hmap
  refine ⟨S, ptrs, hp, hmap, tokens_maximalRuns _ line (Nat.le_refl _), ?_, ?_, ?_⟩
  · have := congrArg List.length hmap
    simpa using this
  · intro t ht
    unfold tokens at ht
    rw [List.mem_filter] at ht
    refine ⟨?_, splitOnP_no_space line t ht.1⟩
    intro h
    rw [h] at ht
    simp at ht
  · unfold tokens
    rw [flatten_filter_nonempty, splitOnP_flatten]

/-- Witness of C19: the line ` si  now ` has the two tokens `si` and `now`. -/
theorem parse_loop_argv_witness :
    NUL ∉ " si  now ".toList ∧ tokens " si  now ".toList = ["si".toList, "now".toList] ∧
      ∃ (buf : List Char) (argv : List Nat),
        parse_loop [] " si  now ".toList [] = Parsed.args buf argv ∧
        argv.map (cstring buf) = (tokens " si  now ".toList).map String.mk ∧
        MaximalRuns " si  now ".toList (tokens " si  now ".toList) ∧
        argv.length = (tokens " si  now ".toList).length ∧
        (∀ t ∈ tokens " si  now ".toList, t ≠ [] ∧ ∀ c ∈ t, isSpace c = false) ∧
        (tokens " si  now ".toList).flatten =
          " si  now ".toList.filter (fun c => !isSpace c) :=
  ⟨by decide, by decide, parse_loop_argv " si  now ".toList (by decide) (by decide)⟩

/-! ## Further lemmas on `runcmd` -/

/-- C16: for a trap frame whose trap number is the breakpoint or the debug
trap, `mon_break_continue` prints nothing and ends in `iret` instead of
returning a status; a line (of at most `15` tokens) whose command is `continue`
makes `runcmd` end the same way, and the loop of `monitor` that reads this line
ends there: its trace from that call on is the prompt of the line alone, with
no `Command failed!` and no further prompt. -/
theorem continue_is_terminal (K : Kernel) (input : Nat → Option (List Char)) (fuel n : Nat)
    (t : Trapframe) (line : List Char)
    (htrap : t.tf_trapno = K.T_BRKPT ∨ t.tf_trapno = K.T_DEBUG)
    (hnul : NUL ∉ line) (hlen : (tokens line).length ≤ 15)
    (hfirst : (tokens line).head? = some "continue".toList)
    (hin : input n = some line) :
    (∀ (argc : Nat) (argv : List String),
        mon_break_continue K argc argv (some t) =
          { out := [], tf := some { t with tf_eflags := t.tf_eflags &&& 0x11111011 },
            ctl := Ctl.iret (resume { t with tf_eflags := t.tf_eflags &&& 0x11111011 }) }) ∧
      runcmd K fuel line (some t) =
        some { out := [], tf := some { t with tf_eflags := t.tf_eflags &&& 0x11111011 },
               ctl := Ctl.iret (resume { t with tf_eflags := t.tf_eflags &&& 0x11111011 }) } ∧
      monitor_loop K input (fuel + 1) n (some t) =
        some { out := [prompt], tf := some { t with tf_eflags := t.tf_eflags &&& 0x11111011 },
               exit := Exit.iret (resume { t with tf_eflags := t.tf_eflags &&& 0x11111011 }) } := by
  have hguard : ¬ (t.tf_trapno ≠ K.T_BRKPT ∧ t.tf_trapno ≠ K.T_DEBUG) := by
    rintro ⟨h1, h2⟩
    exact htrap.elim h1 h2
  have hcont : ∀ (argc : Nat) (argv : List String),
      mon_break_continue K argc argv (some t) =
        { out := [], tf := some { t with tf_eflags := t.tf_eflags &&& 0x11111011 },
          ctl := Ctl.iret (resume { t with tf_eflags := t.tf_eflags &&& 0x11111011 }) } := by
    intro argc argv
    simp [mon_break_continue, hguard]
  have hrun : runcmd K fuel line (some t) =
      some { out := [], tf := some { t with tf_eflags := t.tf_eflags &&& 0x11111011 },
             ctl := Ctl.iret (resume { t with tf_eflags := t.tf_eflags &&& 0x11111011 }) } := by
    cases htok : tokens line with
    | nil => rw [htok] at hfirst; simp at hfirst
    | cons tok rest =>
      obtain ⟨heq, hhead⟩ := runcmd_eq_lookup K fuel line (some t) hnul hlen tok rest htok
      rw [htok] at hfirst
      simp only [List.head?_cons, Option.some.injEq] at hfirst
      subst hfirst
      rw [heq, lookup_commands, hhead]
      simp [hcont]
  refine ⟨hcont, hrun, ?_⟩
  rw [monitor_loop, hin]
  simp only [hrun]

/-- Witness of C16: the line `continue` at a debug (single-step) trap. -/
theorem continue_is_terminal_witness :
    (exampleFrame 1 0x302).tf_trapno = (exampleKernel 0).T_DEBUG ∧
      monitor_loop (exampleKernel 0) (fun _ => some "continue".toList) (0 + 1) 0
          (some (exampleFrame 1 0x302)) =
        some { out := [prompt],
               tf := some { exampleFrame 1 0x302 with
                 tf_eflags := (exampleFrame 1 0x302).tf_eflags &&& 0x11111011 },
               exit := Exit.iret (resume { exampleFrame 1 0x302 with
                 tf_eflags := (exampleFrame 1 0x302).tf_eflags &&& 0x11111011 }) } :=
  ⟨rfl, (continue_is_terminal (exampleKernel 0) (fun _ => some "continue".toList) 0 0
    (exampleFrame 1 0x302) "continue".toList (Or.inr rfl) (by decide) (by decide) (by decide)
    rfl).2.2⟩

end Monitor
